import Mathlib

/-! The retry loop of the GAE transport.

A shallow embedding of `Transport.RoundTrip` from
`httpproxy/filters/gae/gaetransport.go`.

The function drives a loop of attempts.  Everything it calls (the server pool,
the inner round tripper, the dialer's blacklist, the helpers, the clock, the
body streams) is a collaborator: a function on an arbitrary collaborator state
`σ`, so a collaborator may answer differently each time it is called.  Next to
that state the model keeps the chronological list of collaborator calls made
by `RoundTrip`; the collaborators cannot see or change that list.

Calls to `glog` are left out, but not the dereference of the encoded request
among their arguments (`req1.Host`).  Pointers returned by collaborators are
`Option`s: dereferencing `nil` ends the run with a panic.  The caller's request
and the picked server are taken to be there.
-/

namespace gae

/-- Byte slices: a byte is a number. -/
abbrev Bytes := List Nat

/-- A Go `error` value as `RoundTrip` observes it: its message, the answer of
its `Timeout() bool` method when the dynamic type has one, and the `Op` field
when the dynamic type is `*net.OpError`. -/
structure GoError where
  Error : String
  Timeout : Option Bool
  OpErrorOp : Option String
deriving DecidableEq, Repr

/-- The value `fmt.Errorf` builds from a finished message: an error that has
no `Timeout` method and is no `*net.OpError`. -/
def Errorf (msg : String) : GoError :=
  { Error := msg, Timeout := none, OpErrorOp := none }

/-- The request `*http.Request`; `GoSyntax` is its rendering under the verb
`%#v`. -/
structure Request where
  Method : String
  URL : String
  GoSyntax : String
deriving DecidableEq, Repr

/-- A fetch server picked from the pool. -/
structure Server where
  Host : String
deriving DecidableEq, Repr

/-- A response body: a stream owned by a collaborator, or the in-memory reader
`ioutil.NopCloser(bytes.NewReader(b))`. -/
inductive Body where
  | stream (handle : Nat)
  | nopCloser (b : Bytes)
deriving DecidableEq, Repr

/-- The response `*http.Response`, by value: the decoder is taken to build a
response of its own, not to hand back the pointer it was given. -/
structure Response where
  StatusCode : Int
  Header : List (String × String)
  Body : Body
  Request : Option Request
deriving DecidableEq, Repr

/-- One collaborator call, with its arguments. -/
inductive Event where
  | PickFetchServer (req : Request) (i : Int)
  | EncodeRequest (req : Request) (server : Server)
  | RoundTrip (req1 : Option Request)
  | TryCloseConnections
  | ToggleBadServer (server : Server)
  | Sleep (d : Int)
  | ReflectRemoteAddrFromResponse (resp : Response)
  | Now
  | IPBlackListSet (ip : String) (expiry : Int)
  | TryCloseConnectionByRemoteAddr (addr : String)
  | DecodeResponse (resp : Response)
  | ReadAll (body : Body)
  | Close (body : Body)
deriving DecidableEq, Repr

/-- The pool `*Servers`. -/
structure Servers (σ : Type) where
  PickFetchServer : Request → Int → σ → Server × σ
  EncodeRequest : Request → Server → σ → (Option Request × Option GoError) × σ
  DecodeResponse : Response → σ → (Option Response × Option GoError) × σ
  ToggleBadServer : Server → σ → σ

/-- The embedded `http.RoundTripper`, with the two helpers that close its
pooled connections. -/
structure RoundTripper (σ : Type) where
  RoundTrip : Option Request → σ → (Option Response × Option GoError) × σ
  TryCloseConnections : σ → σ
  TryCloseConnectionByRemoteAddr : String → σ → Bool × σ

/-- The dialer `*dialer.MultiDialer`: only `IPBlackList.Set` is used. -/
structure MultiDialer (σ : Type) where
  IPBlackListSet : String → Int → σ → σ

/-- The receiver `*Transport`.  Durations and instants are nanosecond counts. -/
structure Transport (σ : Type) where
  RoundTripper : RoundTripper σ
  MultiDialer : Option (MultiDialer σ)
  Servers : Servers σ
  RetryDelay : Int
  RetryTimes : Int

/-- What `RoundTrip` uses from `helpers`, `net`, `time` and `ioutil`.  Reading
and closing concern collaborator streams; `SplitHostPort` is a pure function. -/
structure Runtime (σ : Type) where
  ReflectRemoteAddrFromResponse : Response → σ → (String × Option GoError) × σ
  SplitHostPort : String → (String × String) × Option GoError
  Now : σ → Int × σ
  Sleep : Int → σ → σ
  ReadAll : Nat → σ → (Bytes × Option GoError) × σ
  Close : Nat → σ → σ

/-- The collaborator state together with the calls made so far, oldest
first. -/
structure World (σ : Type) where
  st : σ
  trace : List Event
deriving DecidableEq

/-- How a call of `RoundTrip` ends: it returns a pair, or it panics on a nil
pointer. -/
inductive Outcome where
  | returned (resp : Option Response) (err : Option GoError)
  | panicked
deriving DecidableEq, Repr

/-- How one pass through the loop body ends: `continue`, or leaving the
function. -/
inductive Step (σ : Type) where
  | next (w : World σ)
  | done (o : Outcome) (w : World σ)

def StatusOK : Int := 200
def StatusFound : Int := 302
def StatusNotFound : Int := 404
def StatusMethodNotAllowed : Int := 405
def StatusBadGateway : Int := 502
def StatusServiceUnavailable : Int := 503

/-- The duration `time.Hour`. -/
def Hour : Int := 3600 * 1000000000

/-- The bytes of an ASCII string literal. -/
def bytesOf (s : String) : Bytes := s.toList.map Char.toNat

/-- The function `bytes.HasPrefix`. -/
def HasPrefix : Bytes → Bytes → Bool
  | _, [] => true
  | [], _ :: _ => false
  | b :: bs, p :: ps => b == p && HasPrefix bs ps

/-- The function `bytes.Contains`. -/
def Contains : Bytes → Bytes → Bool
  | [], subslice => HasPrefix [] subslice
  | b :: bs, subslice => HasPrefix (b :: bs) subslice || Contains bs subslice

variable {σ : Type}

/-! ## Collaborator calls, each recorded in the trace -/

def callPickFetchServer (t : Transport σ) (req : Request) (i : Int) (w : World σ) :
    Server × World σ :=
  let r := t.Servers.PickFetchServer req i w.st
  (r.1, ⟨r.2, w.trace ++ [Event.PickFetchServer req i]⟩)

def callEncodeRequest (t : Transport σ) (req : Request) (server : Server) (w : World σ) :
    (Option Request × Option GoError) × World σ :=
  let r := t.Servers.EncodeRequest req server w.st
  (r.1, ⟨r.2, w.trace ++ [Event.EncodeRequest req server]⟩)

def callRoundTrip (t : Transport σ) (req1 : Option Request) (w : World σ) :
    (Option Response × Option GoError) × World σ :=
  let r := t.RoundTripper.RoundTrip req1 w.st
  (r.1, ⟨r.2, w.trace ++ [Event.RoundTrip req1]⟩)

def callTryCloseConnections (t : Transport σ) (w : World σ) : World σ :=
  ⟨t.RoundTripper.TryCloseConnections w.st, w.trace ++ [Event.TryCloseConnections]⟩

def callToggleBadServer (t : Transport σ) (server : Server) (w : World σ) : World σ :=
  ⟨t.Servers.ToggleBadServer server w.st, w.trace ++ [Event.ToggleBadServer server]⟩

def callSleep (rt : Runtime σ) (d : Int) (w : World σ) : World σ :=
  ⟨rt.Sleep d w.st, w.trace ++ [Event.Sleep d]⟩

def callReflectRemoteAddrFromResponse (rt : Runtime σ) (resp : Response) (w : World σ) :
    (String × Option GoError) × World σ :=
  let r := rt.ReflectRemoteAddrFromResponse resp w.st
  (r.1, ⟨r.2, w.trace ++ [Event.ReflectRemoteAddrFromResponse resp]⟩)

def callNow (rt : Runtime σ) (w : World σ) : Int × World σ :=
  let r := rt.Now w.st
  (r.1, ⟨r.2, w.trace ++ [Event.Now]⟩)

def callIPBlackListSet (md : MultiDialer σ) (ip : String) (expiry : Int) (w : World σ) :
    World σ :=
  ⟨md.IPBlackListSet ip expiry w.st, w.trace ++ [Event.IPBlackListSet ip expiry]⟩

def callTryCloseConnectionByRemoteAddr (t : Transport σ) (addr : String) (w : World σ) :
    Bool × World σ :=
  let r := t.RoundTripper.TryCloseConnectionByRemoteAddr addr w.st
  (r.1, ⟨r.2, w.trace ++ [Event.TryCloseConnectionByRemoteAddr addr]⟩)

def callDecodeResponse (t : Transport σ) (resp : Response) (w : World σ) :
    (Option Response × Option GoError) × World σ :=
  let r := t.Servers.DecodeResponse resp w.st
  (r.1, ⟨r.2, w.trace ++ [Event.DecodeResponse resp]⟩)

/-- The call `ioutil.ReadAll(body)`: an in-memory reader yields its bytes, a
collaborator stream is read by the runtime. -/
def callReadAll (rt : Runtime σ) (body : Body) (w : World σ) :
    (Bytes × Option GoError) × World σ :=
  match body with
  | Body.nopCloser b => ((b, none), ⟨w.st, w.trace ++ [Event.ReadAll body]⟩)
  | Body.stream h =>
    let r := rt.ReadAll h w.st
    (r.1, ⟨r.2, w.trace ++ [Event.ReadAll body]⟩)

/-- The call `body.Close()`; its result is dropped. -/
def callClose (rt : Runtime σ) (body : Body) (w : World σ) : World σ :=
  match body with
  | Body.nopCloser _ => ⟨w.st, w.trace ++ [Event.Close body]⟩
  | Body.stream h => ⟨rt.Close h w.st, w.trace ++ [Event.Close body]⟩

/-! ## The loop body -/

/-- The timeout test of lines 37-45: the error has a `Timeout` method that
answers true, or it is a `*net.OpError` whose `Op` is `"read"`. -/
def isTimeoutError (err : GoError) : Bool :=
  err.Timeout == some true || err.OpErrorOp == some "read"

/-- Lines 35-58: the inner round trip failed with `err`. -/
def onTransportError (t : Transport σ) (i : Int) (err : GoError) (w : World σ) : Step σ :=
  let w1 := if isTimeoutError err then callTryCloseConnections t w else w
  if i = t.RetryTimes - 1 then Step.done (Outcome.returned none (some err)) w1
  else Step.next w1

/-- Lines 75-85: the blacklist branch of the statuses 302, 502, 404 and 405. -/
def blacklistRemote (rt : Runtime σ) (t : Transport σ) (resp : Response) (w : World σ) :
    World σ :=
  match t.MultiDialer with
  | none => w
  | some md =>
    let a := callReflectRemoteAddrFromResponse rt resp w
    match a.1.2 with
    | some _ => a.2
    | none =>
      let addr := a.1.1
      let w2 :=
        match (rt.SplitHostPort addr).2 with
        | some _ => a.2
        | none =>
          let n := callNow rt a.2
          callIPBlackListSet md (rt.SplitHostPort addr).1.1 (n.1 + 8 * Hour) n.2
      (callTryCloseConnectionByRemoteAddr t addr w2).2

/-- Lines 60-90: the wrapper response `resp` has a status other than 200. -/
def onWrapperStatus (rt : Runtime σ) (t : Transport σ) (i : Int) (server : Server)
    (resp : Response) (w : World σ) : Step σ :=
  if i = t.RetryTimes - 1 then Step.done (Outcome.returned (some resp) none) w
  else if resp.StatusCode = StatusServiceUnavailable then
    Step.next (callSleep rt t.RetryDelay (callToggleBadServer t server w))
  else if resp.StatusCode = StatusFound ∨ resp.StatusCode = StatusBadGateway
      ∨ resp.StatusCode = StatusNotFound ∨ resp.StatusCode = StatusMethodNotAllowed then
    Step.next (blacklistRemote rt t resp w)
  else Step.done (Outcome.returned (some resp) none) w

/-- The log calls of lines 113, 116 and 120 have `req1.Host` among their
arguments, which are evaluated whatever the verbosity: with a nil `req1` the
pass panics there, in the world `w`; otherwise it goes on as `s`. -/
def logHost (req1 : Option Request) (w : World σ) (s : Step σ) : Step σ :=
  match req1 with
  | none => Step.done Outcome.panicked w
  | some _ => s

/-- Lines 96-129: `DecodeResponse` gave `resp1` and a nil error for the wrapper
response `resp`; `req1` is the encoded request of this pass.  On the last
attempt line 100 returns `resp, err`, with `err` nil at that point.  In the
three marker branches the log call comes first, then the sleep if any, then
`continue`. -/
def onDecoded (rt : Runtime σ) (t : Transport σ) (req : Request) (i : Int)
    (req1 : Option Request) (resp : Response) (resp1 : Option Response) (w : World σ) :
    Step σ :=
  let resp1 := resp1.map fun r => { r with Request := some req }
  if i = t.RetryTimes - 1 then Step.done (Outcome.returned (some resp) none) w
  else
    match resp1 with
    | none => Step.done Outcome.panicked w
    | some r1 =>
      if r1.StatusCode = StatusBadGateway then
        let b := callReadAll rt r1.Body w
        match b.1.2 with
        | some err => Step.done (Outcome.returned none (some err)) (callClose rt r1.Body b.2)
        | none =>
          let body := b.1.1
          let w2 := callClose rt r1.Body b.2
          if Contains body (bytesOf "DEADLINE_EXCEEDED") then
            logHost req1 w2 (Step.next w2)
          else if Contains body (bytesOf "ver quota") then
            logHost req1 w2 (Step.next (callSleep rt t.RetryDelay w2))
          else if Contains body (bytesOf "urlfetch: CLOSED") then
            logHost req1 w2 (Step.next (callSleep rt t.RetryDelay w2))
          else
            Step.done (Outcome.returned (some { r1 with Body := Body.nopCloser body }) none) w2
      else Step.done (Outcome.returned (some r1) none) w

/-- Lines 27-129: the loop body for the index `i`. -/
def attempt (rt : Runtime σ) (t : Transport σ) (req : Request) (i : Int) (w : World σ) :
    Step σ :=
  let p := callPickFetchServer t req i w
  let e := callEncodeRequest t req p.1 p.2
  match e.1.2 with
  | some err =>
    Step.done (Outcome.returned none (some (Errorf ("GAE EncodeRequest: " ++ err.Error)))) e.2
  | none =>
    let r := callRoundTrip t e.1.1 e.2
    match r.1.2 with
    | some err => onTransportError t i err r.2
    | none =>
      match r.1.1 with
      | none => Step.done Outcome.panicked r.2
      | some resp =>
        if resp.StatusCode ≠ StatusOK then onWrapperStatus rt t i p.1 resp r.2
        else
          let d := callDecodeResponse t resp r.2
          match d.1.2 with
          | some err => Step.done (Outcome.returned none (some err)) d.2
          | none => onDecoded rt t req i e.1.1 resp d.1.1 d.2

/-! ## The loop -/

/-- The error of line 132. -/
def cannotReachHere (req : Request) : GoError :=
  Errorf ("GAE: cannot reach here with " ++ req.GoSyntax)

/-- The `for` loop of line 26 from the index `i` on, with a bound on the number
of passes; `none` when the bound is used up before the loop ends. -/
def loop (rt : Runtime σ) (t : Transport σ) (req : Request) :
    Nat → Int → World σ → Option (Outcome × World σ)
  | 0, i, w =>
    if i < t.RetryTimes then none
    else some (Outcome.returned none (some (cannotReachHere req)), w)
  | fuel + 1, i, w =>
    if i < t.RetryTimes then
      match attempt rt t req i w with
      | Step.next w1 => loop rt t req fuel (i + 1) w1
      | Step.done o w1 => some (o, w1)
    else some (Outcome.returned none (some (cannotReachHere req)), w)

/-- The method `(*Transport).RoundTrip`: the loop from index 0, with as many
passes allowed as the loop can make. -/
def RoundTrip (rt : Runtime σ) (t : Transport σ) (req : Request) (w : World σ) :
    Option (Outcome × World σ) :=
  loop rt t req t.RetryTimes.toNat 0 w

/-- The world in which the pass with index `i` begins, when the run started in
`w0` gets that far. -/
def attemptStart (rt : Runtime σ) (t : Transport σ) (req : Request) (w0 : World σ) :
    Nat → Option (World σ)
  | 0 => if (0 : Int) < t.RetryTimes then some w0 else none
  | n + 1 =>
    match attemptStart rt t req w0 n with
    | none => none
    | some w =>
      match attempt rt t req (n : Int) w with
      | Step.next w1 => if ((n + 1 : Nat) : Int) < t.RetryTimes then some w1 else none
      | Step.done _ _ => none

/-! ## Scripted collaborators

Concrete collaborators for evaluating the model: the collaborator state is the
index of the attempt under way, and a script says what each collaborator
answers during that attempt. -/

/-- What the collaborators answer, by attempt. -/
structure Script where
  encode : Nat → Option Request × Option GoError
  perform : Nat → Option Response × Option GoError
  decode : Nat → Option Response × Option GoError
  readAll : Nat → Bytes × Option GoError
  reflect : Nat → String × Option GoError

def scriptedServers (sc : Script) : Servers Nat where
  PickFetchServer := fun _ i _ => (⟨"appid"⟩, i.toNat)
  EncodeRequest := fun _ _ n => (sc.encode n, n)
  DecodeResponse := fun _ n => (sc.decode n, n)
  ToggleBadServer := fun _ n => n

def scriptedRoundTripper (sc : Script) : RoundTripper Nat where
  RoundTrip := fun _ n => (sc.perform n, n)
  TryCloseConnections := fun n => n
  TryCloseConnectionByRemoteAddr := fun _ n => (true, n)

def scriptedTransport (sc : Script) (retryTimes : Int) : Transport Nat where
  RoundTripper := scriptedRoundTripper sc
  MultiDialer := some ⟨fun _ _ n => n⟩
  Servers := scriptedServers sc
  RetryDelay := 1000
  RetryTimes := retryTimes

/-- A runtime for the scripts; addresses are split at the first colon. -/
def scriptedRuntime (sc : Script) : Runtime Nat where
  ReflectRemoteAddrFromResponse := fun _ n => (sc.reflect n, n)
  SplitHostPort := fun addr =>
    match addr.toList.span (fun c => c != ':') with
    | (host, ':' :: port) => ((String.mk host, String.mk port), none)
    | _ => (("", ""), some ⟨"missing port in address", none, none⟩)
  Now := fun n => (0, n)
  Sleep := fun _ n => n
  ReadAll := fun _ n => (sc.readAll n, n)
  Close := fun _ n => n

def sampleRequest : Request := ⟨"GET", "http://example.org/", "&http.Request{}"⟩

def sampleEncoded : Request := ⟨"POST", "https://appid.appspot.com/", "&http.Request{}"⟩

def sampleError : GoError := ⟨"boom", none, none⟩

/-- A wrapper response with the given status. -/
def rawResponse (status : Int) : Response := ⟨status, [], Body.stream 0, none⟩

/-- A decoded response with the given status. -/
def decodedResponse (status : Int) : Response :=
  ⟨status, [("Content-Type", "text/html")], Body.stream 1, none⟩

/-- The script in which everything succeeds: wrapper status 200, decoded status
200, an empty body. -/
def okScript : Script where
  encode := fun _ => (some sampleEncoded, none)
  perform := fun _ => (some (rawResponse 200), none)
  decode := fun _ => (some (decodedResponse 200), none)
  readAll := fun _ => ([], none)
  reflect := fun _ => ("203.0.113.7:443", none)

def emptyWorld : World Nat := ⟨0, []⟩

/-! ## Reading a run -/

/-- The world a pass ends in. -/
def Step.world : Step σ → World σ
  | Step.next w => w
  | Step.done _ w => w

/-- The events that are calls of the inner round tripper. -/
def Event.isRoundTrip : Event → Bool
  | Event.RoundTrip _ => true
  | _ => false

/-- The number of inner round trips in a trace. -/
def performCalls (tr : List Event) : Nat := tr.countP Event.isRoundTrip

/-- The outcome is a response without an error, or an error without a
response. -/
def Outcome.exactlyOne : Outcome → Bool
  | Outcome.returned (some _) none => true
  | Outcome.returned none (some _) => true
  | _ => false

/-- The inner round tripper never answers a nil response with a nil error. -/
def PerformYieldsResponse (t : Transport σ) : Prop :=
  ∀ req1 s, (t.RoundTripper.RoundTrip req1 s).1.2 = none →
    (t.RoundTripper.RoundTrip req1 s).1.1 ≠ none

/-- The encoder never answers a nil request with a nil error. -/
def EncodeYieldsRequest (t : Transport σ) : Prop :=
  ∀ req server s, (t.Servers.EncodeRequest req server s).1.2 = none →
    (t.Servers.EncodeRequest req server s).1.1 ≠ none

/-- The decoder never answers a nil response with a nil error. -/
def DecodeYieldsResponse (t : Transport σ) : Prop :=
  ∀ resp s, (t.Servers.DecodeResponse resp s).1.2 = none →
    (t.Servers.DecodeResponse resp s).1.1 ≠ none

/-- The events that are backoff sleeps. -/
def Event.isSleep : Event → Bool
  | Event.Sleep _ => true
  | _ => false

/-- The number of backoff sleeps in a trace. -/
def sleepCalls (tr : List Event) : Nat := tr.countP Event.isSleep

/-! ## Sample scripts -/

/-- The first attempt meets a wrapper status 503, the second a wrapper status
404. -/
def overloadedThenNotFoundScript : Script :=
  { okScript with
    perform := fun n => if n = 0 then (some (rawResponse 503), none)
      else (some (rawResponse 404), none) }

/-- The first attempt meets a wrapper status 500. -/
def serverErrorScript : Script :=
  { okScript with
    perform := fun n => if n = 0 then (some (rawResponse 500), none)
      else (some (rawResponse 200), none) }

/-- Encoding fails on the second attempt; the first meets a wrapper status
503. -/
def encodeFailsSecondScript : Script :=
  { okScript with
    encode := fun n => if n = 0 then (some sampleEncoded, none) else (none, some sampleError)
    perform := fun _ => (some (rawResponse 503), none) }

/-- Decoding fails on the first attempt. -/
def decodeFailsScript : Script :=
  { okScript with decode := fun _ => (none, some sampleError) }

/-- Encoding fails on the first attempt. -/
def encodeFailsScript : Script :=
  { okScript with encode := fun _ => (none, some sampleError) }

/-- A read error that reports a timeout. -/
def readTimeout : GoError := ⟨"read tcp: i/o timeout", some true, some "read"⟩

/-- A dial error that reports no timeout. -/
def dialRefused : GoError := ⟨"dial tcp: connection refused", some false, some "dial"⟩

/-- The inner round trip fails on every attempt: with a read timeout first,
with a refused dial afterwards. -/
def transportFailsScript : Script :=
  { okScript with
    perform := fun n => if n = 0 then (none, some readTimeout) else (none, some dialRefused) }

/-- The first attempt decodes a 502 whose body is `body`; later attempts decode
a 200. -/
def badGatewayScript (body : Bytes) : Script :=
  { okScript with
    decode := fun n => if n = 0 then (some (decodedResponse 502), none)
      else (some (decodedResponse 200), none)
    readAll := fun _ => (body, none) }

/-- The decoder answers a nil response with a nil error. -/
def nilDecodeScript : Script :=
  { okScript with decode := fun _ => (none, none) }

/-- The inner round tripper answers a nil response with a nil error. -/
def nilPerformScript : Script :=
  { okScript with perform := fun _ => (none, none) }

/-- The events that are picks of a fetch server. -/
def Event.isPickFetchServer : Event → Bool
  | Event.PickFetchServer _ _ => true
  | _ => false

/-- The events that are encodings. -/
def Event.isEncodeRequest : Event → Bool
  | Event.EncodeRequest _ _ => true
  | _ => false

/-- The events that deprioritize a server. -/
def Event.isToggleBadServer : Event → Bool
  | Event.ToggleBadServer _ => true
  | _ => false

/-- The events that write to the blacklist. -/
def Event.isIPBlackListSet : Event → Bool
  | Event.IPBlackListSet _ _ => true
  | _ => false

/-- The events that are decodings. -/
def Event.isDecodeResponse : Event → Bool
  | Event.DecodeResponse _ => true
  | _ => false

/-- The events that close the connections of the inner round tripper. -/
def Event.isTryCloseConnections : Event → Bool
  | Event.TryCloseConnections => true
  | _ => false

/-- The events that close a body. -/
def Event.isClose : Event → Bool
  | Event.Close _ => true
  | _ => false

/-- The events of the blacklist branch: the remote address lookup, the
blacklist write and the closing of the connections to an address. -/
def Event.isDialerCall : Event → Bool
  | Event.ReflectRemoteAddrFromResponse _ => true
  | Event.IPBlackListSet _ _ => true
  | Event.TryCloseConnectionByRemoteAddr _ => true
  | _ => false

/-- The indices handed to `PickFetchServer`, in the order of the calls. -/
def pickIndices : List Event → List Int
  | [] => []
  | Event.PickFetchServer _ i :: tr => i :: pickIndices tr
  | _ :: tr => pickIndices tr

/-- The scripted transport without a dialer. -/
def scriptedTransportNoDialer (sc : Script) (retryTimes : Int) : Transport Nat :=
  { scriptedTransport sc retryTimes with MultiDialer := none }

/-- The first attempt meets a wrapper status 404, later ones a 200. -/
def suspectScript : Script :=
  { okScript with
    perform := fun n => if n = 0 then (some (rawResponse 404), none)
      else (some (rawResponse 200), none) }

/-- The first attempt decodes a 502 whose body cannot be read. -/
def readFailsScript : Script :=
  { okScript with
    decode := fun _ => (some (decodedResponse 502), none)
    readAll := fun _ => ([], some sampleError) }

/-- Whether the pass that begins in `w` meets one of the backoff conditions:
the wrapper status is 503, or the wrapper status is 200 and the decoded
response has status 502 and a body, read without error, that holds
`"ver quota"` or `"urlfetch: CLOSED"`. -/
def backoffCause (rt : Runtime σ) (t : Transport σ) (req : Request) (i : Int)
    (w : World σ) : Bool :=
  let p := callPickFetchServer t req i w
  let e := callEncodeRequest t req p.1 p.2
  let r := callRoundTrip t e.1.1 e.2
  e.1.2.isNone && r.1.2.isNone &&
    match r.1.1 with
    | none => false
    | some resp =>
      decide (resp.StatusCode = StatusServiceUnavailable) ||
        (decide (resp.StatusCode = StatusOK) &&
          let d := callDecodeResponse t resp r.2
          d.1.2.isNone &&
            match d.1.1 with
            | none => false
            | some r1 =>
              let b := callReadAll rt r1.Body d.2
              decide (r1.StatusCode = StatusBadGateway) && b.1.2.isNone &&
                (Contains b.1.1 (bytesOf "ver quota") ||
                  Contains b.1.1 (bytesOf "urlfetch: CLOSED")))

/-- The first attempt decodes a 502 whose body gives the bytes of
`"DEADLINE_EXCEEDED"` and then a read error. -/
def markerReadFailsScript : Script :=
  { okScript with
    decode := fun _ => (some (decodedResponse 502), none)
    readAll := fun _ => (bytesOf "DEADLINE_EXCEEDED", some sampleError) }

/-- The encoder answers a nil request with a nil error; the first attempt
decodes a 502 whose body holds `"DEADLINE_EXCEEDED"`. -/
def nilEncodeMarkerScript : Script :=
  { badGatewayScript (bytesOf "DEADLINE_EXCEEDED") with encode := fun _ => (none, none) }

/-! # Theorems -/

theorem HasPrefix_iff (b p : Bytes) : HasPrefix b p = true ↔ p <+: b := by
  induction b generalizing p with
  | nil => cases p <;> simp [HasPrefix]
  | cons x xs ih =>
    cases p with
    | nil => simp [HasPrefix]
    | cons y ys =>
      simp only [HasPrefix, Bool.and_eq_true, beq_iff_eq, ih, List.cons_prefix_cons]
      constructor
      · rintro ⟨h1, h2⟩; exact ⟨h1.symm, h2⟩
      · rintro ⟨h1, h2⟩; exact ⟨h1.symm, h2⟩

theorem Contains_iff (b subslice : Bytes) : Contains b subslice = true ↔ subslice <:+: b := by
  induction b with
  | nil => simp [Contains, HasPrefix_iff]
  | cons x xs ih =>
    simp only [Contains, Bool.or_eq_true, HasPrefix_iff, ih, List.infix_cons_iff]

theorem onTransportError_next {t : Transport σ} {i : Int} {err : GoError} {w w1 : World σ}
    (h : onTransportError t i err w = Step.next w1) : i ≠ t.RetryTimes - 1 := by
  unfold onTransportError at h
  intro hi
  simp [hi] at h

theorem onWrapperStatus_next {rt : Runtime σ} {t : Transport σ} {i : Int} {server : Server}
    {resp : Response} {w w1 : World σ}
    (h : onWrapperStatus rt t i server resp w = Step.next w1) : i ≠ t.RetryTimes - 1 := by
  unfold onWrapperStatus at h
  intro hi
  simp [hi] at h

theorem onDecoded_next {rt : Runtime σ} {t : Transport σ} {req : Request} {i : Int}
    {req1 : Option Request} {resp : Response} {resp1 : Option Response} {w w1 : World σ}
    (h : onDecoded rt t req i req1 resp resp1 w = Step.next w1) : i ≠ t.RetryTimes - 1 := by
  unfold onDecoded at h
  intro hi
  simp [hi] at h

theorem attempt_next {rt : Runtime σ} {t : Transport σ} {req : Request} {i : Int}
    {w w1 : World σ} (h : attempt rt t req i w = Step.next w1) : i ≠ t.RetryTimes - 1 := by
  unfold attempt at h
  simp only at h
  split at h
  · simp at h
  · split at h
    · exact onTransportError_next h
    · split at h
      · simp at h
      · split at h
        · exact onWrapperStatus_next h
        · split at h
          · simp at h
          · exact onDecoded_next h

theorem loop_succ_of_lt {rt : Runtime σ} {t : Transport σ} {req : Request} {fuel : Nat}
    {i : Int} {w : World σ} (hi : i < t.RetryTimes) :
    loop rt t req (fuel + 1) i w =
      match attempt rt t req i w with
      | Step.next w1 => loop rt t req fuel (i + 1) w1
      | Step.done o w1 => some (o, w1) := by
  simp [loop, hi]

theorem attemptStart_lt {rt : Runtime σ} {t : Transport σ} {req : Request} {w0 w : World σ}
    {i : Nat} (h : attemptStart rt t req w0 i = some w) : (i : Int) < t.RetryTimes := by
  cases i with
  | zero =>
    simp only [attemptStart] at h
    split at h
    · simpa using ‹(0 : Int) < t.RetryTimes›
    · simp at h
  | succ n =>
    simp only [attemptStart] at h
    split at h
    · simp at h
    · split at h
      · split at h
        · assumption
        · simp at h
      · simp at h

theorem RoundTrip_eq_loop {rt : Runtime σ} {t : Transport σ} {req : Request} {w0 : World σ} :
    ∀ {i : Nat} {w : World σ}, attemptStart rt t req w0 i = some w →
      RoundTrip rt t req w0 = loop rt t req (t.RetryTimes.toNat - i) (i : Int) w := by
  intro i
  induction i with
  | zero =>
    intro w h
    simp only [attemptStart] at h
    split at h
    · simp only [Option.some.injEq] at h
      subst h
      simp [RoundTrip]
    · simp at h
  | succ n ih =>
    intro w h
    have hlt := attemptStart_lt h
    simp only [attemptStart] at h
    split at h
    · simp at h
    · rename_i wn hn
      split at h
      · rename_i w1 hstep
        rw [if_pos hlt] at h
        simp only [Option.some.injEq] at h
        subst h
        rw [ih hn]
        have hk : t.RetryTimes.toNat - n = (t.RetryTimes.toNat - (n + 1)) + 1 := by omega
        have hn_lt : (n : Int) < t.RetryTimes := by omega
        rw [hk, loop_succ_of_lt hn_lt, hstep]
        simp
      · simp at h

/-- When the pass that begins in `w` leaves the function, the call ends there. -/
theorem RoundTrip_of_done {rt : Runtime σ} {t : Transport σ} {req : Request} {w0 w w1 : World σ}
    {i : Nat} {o : Outcome} (hs : attemptStart rt t req w0 i = some w)
    (hd : attempt rt t req (i : Int) w = Step.done o w1) :
    RoundTrip rt t req w0 = some (o, w1) := by
  have hlt := attemptStart_lt hs
  have hk : t.RetryTimes.toNat - i = (t.RetryTimes.toNat - (i + 1)) + 1 := by omega
  rw [RoundTrip_eq_loop hs, hk, loop_succ_of_lt hlt, hd]

/-- When the pass that begins in `w` ends with `continue`, the next pass begins. -/
theorem attemptStart_succ {rt : Runtime σ} {t : Transport σ} {req : Request} {w0 w w1 : World σ}
    {i : Nat} (hs : attemptStart rt t req w0 i = some w)
    (hn : attempt rt t req (i : Int) w = Step.next w1) :
    attemptStart rt t req w0 (i + 1) = some w1 := by
  have hlt := attemptStart_lt hs
  have hne := attempt_next hn
  have : ((i + 1 : Nat) : Int) < t.RetryTimes := by omega
  simp only [attemptStart, hs, hn, if_pos this]

theorem loop_total (rt : Runtime σ) (t : Transport σ) (req : Request) :
    ∀ (fuel : Nat) (i : Int) (w : World σ), t.RetryTimes ≤ i + fuel →
      ∃ r, loop rt t req fuel i w = some r := by
  intro fuel
  induction fuel with
  | zero =>
    intro i w h
    have : ¬ i < t.RetryTimes := by omega
    simp [loop, this]
  | succ k ih =>
    intro i w h
    by_cases hi : i < t.RetryTimes
    · rw [loop_succ_of_lt hi]
      cases hstep : attempt rt t req i w with
      | next w1 => exact ih (i + 1) w1 (by push_cast at h; omega)
      | done o w1 => exact ⟨_, rfl⟩
    · simp [loop, hi]

theorem RoundTrip_total (rt : Runtime σ) (t : Transport σ) (req : Request) (w : World σ) :
    ∃ r, RoundTrip rt t req w = some r :=
  loop_total rt t req _ 0 w (by simp [Int.self_le_toNat])

/-- When the pass that begins in `w` leaves the function, no further pass
begins. -/
theorem attemptStart_succ_none {rt : Runtime σ} {t : Transport σ} {req : Request}
    {w0 w w1 : World σ} {i : Nat} {o : Outcome} (hs : attemptStart rt t req w0 i = some w)
    (hd : attempt rt t req (i : Int) w = Step.done o w1) :
    attemptStart rt t req w0 (i + 1) = none := by
  simp only [attemptStart, hs, hd]

@[simp] theorem callPickFetchServer_trace (t : Transport σ) (req : Request) (i : Int)
    (w : World σ) :
    (callPickFetchServer t req i w).2.trace = w.trace ++ [Event.PickFetchServer req i] := rfl

@[simp] theorem callEncodeRequest_trace (t : Transport σ) (req : Request) (server : Server)
    (w : World σ) :
    (callEncodeRequest t req server w).2.trace = w.trace ++ [Event.EncodeRequest req server] :=
  rfl

@[simp] theorem callRoundTrip_trace (t : Transport σ) (req1 : Option Request) (w : World σ) :
    (callRoundTrip t req1 w).2.trace = w.trace ++ [Event.RoundTrip req1] := rfl

@[simp] theorem callTryCloseConnections_trace (t : Transport σ) (w : World σ) :
    (callTryCloseConnections t w).trace = w.trace ++ [Event.TryCloseConnections] := rfl

@[simp] theorem callToggleBadServer_trace (t : Transport σ) (server : Server) (w : World σ) :
    (callToggleBadServer t server w).trace = w.trace ++ [Event.ToggleBadServer server] := rfl

@[simp] theorem callSleep_trace (rt : Runtime σ) (d : Int) (w : World σ) :
    (callSleep rt d w).trace = w.trace ++ [Event.Sleep d] := rfl

@[simp] theorem callReflectRemoteAddrFromResponse_trace (rt : Runtime σ) (resp : Response)
    (w : World σ) :
    (callReflectRemoteAddrFromResponse rt resp w).2.trace =
      w.trace ++ [Event.ReflectRemoteAddrFromResponse resp] := rfl

@[simp] theorem callNow_trace (rt : Runtime σ) (w : World σ) :
    (callNow rt w).2.trace = w.trace ++ [Event.Now] := rfl

@[simp] theorem callIPBlackListSet_trace (md : MultiDialer σ) (ip : String) (expiry : Int)
    (w : World σ) :
    (callIPBlackListSet md ip expiry w).trace = w.trace ++ [Event.IPBlackListSet ip expiry] :=
  rfl

@[simp] theorem callTryCloseConnectionByRemoteAddr_trace (t : Transport σ) (addr : String)
    (w : World σ) :
    (callTryCloseConnectionByRemoteAddr t addr w).2.trace =
      w.trace ++ [Event.TryCloseConnectionByRemoteAddr addr] := rfl

@[simp] theorem callDecodeResponse_trace (t : Transport σ) (resp : Response) (w : World σ) :
    (callDecodeResponse t resp w).2.trace = w.trace ++ [Event.DecodeResponse resp] := rfl

@[simp] theorem callReadAll_trace (rt : Runtime σ) (body : Body) (w : World σ) :
    (callReadAll rt body w).2.trace = w.trace ++ [Event.ReadAll body] := by
  cases body <;> rfl

@[simp] theorem callClose_trace (rt : Runtime σ) (body : Body) (w : World σ) :
    (callClose rt body w).trace = w.trace ++ [Event.Close body] := by
  cases body <;> rfl

/-- The trace that the blacklist branch leaves behind holds as many inner round
trips as the one it found. -/
theorem blacklistRemote_performCalls (rt : Runtime σ) (t : Transport σ) (resp : Response)
    (w : World σ) :
    performCalls (blacklistRemote rt t resp w).trace = performCalls w.trace := by
  unfold blacklistRemote
  split
  · rfl
  · simp only
    split
    · simp [performCalls, Event.isRoundTrip]
    · split <;> simp [performCalls, Event.isRoundTrip]

theorem onTransportError_performCalls (t : Transport σ) (i : Int) (err : GoError)
    (w : World σ) :
    performCalls (onTransportError t i err w).world.trace = performCalls w.trace := by
  unfold onTransportError
  simp only
  split <;> split <;> simp [Step.world, performCalls, Event.isRoundTrip]

theorem onWrapperStatus_performCalls (rt : Runtime σ) (t : Transport σ) (i : Int)
    (server : Server) (resp : Response) (w : World σ) :
    performCalls (onWrapperStatus rt t i server resp w).world.trace = performCalls w.trace := by
  unfold onWrapperStatus
  split
  · rfl
  · split
    · simp [Step.world, performCalls, Event.isRoundTrip]
    · split
      · simpa [Step.world] using blacklistRemote_performCalls rt t resp w
      · rfl

/-- The world in which `onDecoded` ends: the one it began in, or that world
after the body was read and closed, or after a sleep on top of that. -/
theorem onDecoded_world (rt : Runtime σ) (t : Transport σ) (req : Request) (i : Int)
    (req1 : Option Request) (resp : Response) (resp1 : Option Response) (w : World σ) :
    (onDecoded rt t req i req1 resp resp1 w).world = w ∨
    ∃ body : Body,
      (onDecoded rt t req i req1 resp resp1 w).world =
        callClose rt body (callReadAll rt body w).2 ∨
      (onDecoded rt t req i req1 resp resp1 w).world =
        callSleep rt t.RetryDelay (callClose rt body (callReadAll rt body w).2) := by
  unfold onDecoded
  simp only
  split
  · exact Or.inl rfl
  · split
    · exact Or.inl rfl
    · rename_i r1 _
      split
      · refine Or.inr ⟨r1.Body, ?_⟩
        split
        · exact Or.inl rfl
        · split
          · cases req1 <;> exact Or.inl rfl
          · split
            · cases req1
              · exact Or.inl rfl
              · exact Or.inr rfl
            · split
              · cases req1
                · exact Or.inl rfl
                · exact Or.inr rfl
              · exact Or.inl rfl
      · exact Or.inl rfl

theorem onDecoded_performCalls (rt : Runtime σ) (t : Transport σ) (req : Request) (i : Int)
    (req1 : Option Request) (resp : Response) (resp1 : Option Response) (w : World σ) :
    performCalls (onDecoded rt t req i req1 resp resp1 w).world.trace =
      performCalls w.trace := by
  rcases onDecoded_world rt t req i req1 resp resp1 w with h | ⟨body, h | h⟩ <;>
    rw [h] <;> simp [performCalls, List.countP_cons, Event.isRoundTrip]

theorem performCalls_append_one (tr : List Event) (e : Event) :
    performCalls (tr ++ [e]) = performCalls tr + (if e.isRoundTrip then 1 else 0) := by
  simp [performCalls, List.countP_cons]

/-- A pass that ends with `continue` has made exactly one inner round trip. -/
theorem attempt_next_performCalls {rt : Runtime σ} {t : Transport σ} {req : Request} {i : Int}
    {w w1 : World σ} (h : attempt rt t req i w = Step.next w1) :
    performCalls w1.trace = performCalls w.trace + 1 := by
  unfold attempt at h
  simp only at h
  split at h
  · simp at h
  · split at h
    · have := congrArg (fun s : Step σ => performCalls s.world.trace) h
      simp only [onTransportError_performCalls] at this
      simp [Step.world, performCalls, List.countP_cons, Event.isRoundTrip] at this ⊢
      omega
    · split at h
      · simp at h
      · split at h
        · have := congrArg (fun s : Step σ => performCalls s.world.trace) h
          simp only [onWrapperStatus_performCalls] at this
          simp [Step.world, performCalls, List.countP_cons, Event.isRoundTrip] at this ⊢
          omega
        · split at h
          · simp at h
          · have := congrArg (fun s : Step σ => performCalls s.world.trace) h
            simp only [onDecoded_performCalls] at this
            simp [Step.world, performCalls, List.countP_cons, Event.isRoundTrip] at this ⊢
            omega

/-- When the pass with index `i` begins, the passes before it have made `i`
inner round trips. -/
theorem attemptStart_performCalls {rt : Runtime σ} {t : Transport σ} {req : Request}
    {w0 : World σ} : ∀ {i : Nat} {w : World σ}, attemptStart rt t req w0 i = some w →
      performCalls w.trace = performCalls w0.trace + i := by
  intro i
  induction i with
  | zero =>
    intro w h
    simp only [attemptStart] at h
    split at h
    · simp only [Option.some.injEq] at h
      subst h
      rfl
    · simp at h
  | succ n ih =>
    intro w h
    have hlt := attemptStart_lt h
    simp only [attemptStart] at h
    split at h
    · simp at h
    · rename_i wn hn
      split at h
      · rename_i w1 hstep
        rw [if_pos hlt] at h
        simp only [Option.some.injEq] at h
        subst h
        rw [attempt_next_performCalls hstep, ih hn]
        omega
      · simp at h

/-! ### Traces only grow -/

theorem blacklistRemote_trace_grows (rt : Runtime σ) (t : Transport σ) (resp : Response)
    (w : World σ) : w.trace <+: (blacklistRemote rt t resp w).trace := by
  unfold blacklistRemote
  split
  · exact List.prefix_refl _
  · simp only
    split
    · simp
    · split <;> simp [List.append_assoc]

theorem onTransportError_trace_grows (t : Transport σ) (i : Int) (err : GoError)
    (w : World σ) : w.trace <+: (onTransportError t i err w).world.trace := by
  unfold onTransportError
  simp only
  split <;> split <;> simp [Step.world]

theorem onWrapperStatus_trace_grows (rt : Runtime σ) (t : Transport σ) (i : Int)
    (server : Server) (resp : Response) (w : World σ) :
    w.trace <+: (onWrapperStatus rt t i server resp w).world.trace := by
  unfold onWrapperStatus
  split
  · exact List.prefix_refl _
  · split
    · simp [Step.world, List.append_assoc]
    · split
      · simpa [Step.world] using blacklistRemote_trace_grows rt t resp w
      · exact List.prefix_refl _

theorem onDecoded_trace_grows (rt : Runtime σ) (t : Transport σ) (req : Request) (i : Int)
    (req1 : Option Request) (resp : Response) (resp1 : Option Response) (w : World σ) :
    w.trace <+: (onDecoded rt t req i req1 resp resp1 w).world.trace := by
  rcases onDecoded_world rt t req i req1 resp resp1 w with h | ⟨body, h | h⟩ <;>
    rw [h] <;> simp [List.append_assoc]

theorem isPrefix_of_append {l1 l2 : List Event} (l : List Event) (h : l1 ++ l <+: l2) :
    l1 <+: l2 :=
  (List.prefix_append l1 l).trans h

/-- A pass only adds calls to the trace. -/
theorem attempt_trace_grows (rt : Runtime σ) (t : Transport σ) (req : Request) (i : Int)
    (w : World σ) : w.trace <+: (attempt rt t req i w).world.trace := by
  unfold attempt
  simp only
  split
  · simp [Step.world, List.append_assoc]
  · split
    · exact List.IsPrefix.trans (by simp [List.append_assoc])
        (onTransportError_trace_grows t i _ _)
    · split
      · simp [Step.world, List.append_assoc]
      · split
        · exact List.IsPrefix.trans (by simp [List.append_assoc])
            (onWrapperStatus_trace_grows rt t i _ _ _)
        · split
          · simp [Step.world, List.append_assoc]
          · exact List.IsPrefix.trans (by simp [List.append_assoc])
              (onDecoded_trace_grows rt t req i _ _ _ _)

theorem loop_trace_grows (rt : Runtime σ) (t : Transport σ) (req : Request) :
    ∀ (fuel : Nat) (i : Int) (w wf : World σ) (o : Outcome),
      loop rt t req fuel i w = some (o, wf) → w.trace <+: wf.trace := by
  intro fuel
  induction fuel with
  | zero =>
    intro i w wf o h
    simp only [loop] at h
    split at h
    · simp at h
    · simp only [Option.some.injEq, Prod.mk.injEq] at h
      rw [← h.2]
  | succ k ih =>
    intro i w wf o h
    simp only [loop] at h
    split at h
    · have hp := attempt_trace_grows rt t req i w
      split at h
      · rename_i w1 hstep
        rw [hstep] at hp
        exact hp.trans (ih _ _ _ _ h)
      · rename_i o1 w1 hstep
        rw [hstep] at hp
        simp only [Option.some.injEq, Prod.mk.injEq] at h
        rw [← h.2]
        exact hp
    · simp only [Option.some.injEq, Prod.mk.injEq] at h
      rw [← h.2]

/-- Whatever the trace holds when a pass begins is the beginning of the trace
the call ends with. -/
theorem attemptStart_trace_grows {rt : Runtime σ} {t : Transport σ} {req : Request}
    {w0 w wf : World σ} {i : Nat} {o : Outcome}
    (hs : attemptStart rt t req w0 i = some w)
    (hf : RoundTrip rt t req w0 = some (o, wf)) : w.trace <+: wf.trace := by
  rw [RoundTrip_eq_loop hs] at hf
  exact loop_trace_grows rt t req _ _ _ _ _ hf

theorem trace_of_callPickFetchServer {t : Transport σ} {req : Request} {i : Int}
    {w w1 : World σ} {server : Server} (h : callPickFetchServer t req i w = (server, w1)) :
    w1.trace = w.trace ++ [Event.PickFetchServer req i] := by
  have := callPickFetchServer_trace t req i w
  rwa [h] at this

theorem trace_of_callEncodeRequest {t : Transport σ} {req : Request} {server : Server}
    {w w1 : World σ} {r : Option Request × Option GoError}
    (h : callEncodeRequest t req server w = (r, w1)) :
    w1.trace = w.trace ++ [Event.EncodeRequest req server] := by
  have := callEncodeRequest_trace t req server w
  rwa [h] at this

theorem trace_of_callRoundTrip {t : Transport σ} {req1 : Option Request}
    {w w1 : World σ} {r : Option Response × Option GoError}
    (h : callRoundTrip t req1 w = (r, w1)) :
    w1.trace = w.trace ++ [Event.RoundTrip req1] := by
  have := callRoundTrip_trace t req1 w
  rwa [h] at this

theorem trace_of_callDecodeResponse {t : Transport σ} {resp : Response}
    {w w1 : World σ} {r : Option Response × Option GoError}
    (h : callDecodeResponse t resp w = (r, w1)) :
    w1.trace = w.trace ++ [Event.DecodeResponse resp] := by
  have := callDecodeResponse_trace t resp w
  rwa [h] at this

theorem trace_of_callReadAll {rt : Runtime σ} {body : Body}
    {w w1 : World σ} {r : Bytes × Option GoError}
    (h : callReadAll rt body w = (r, w1)) :
    w1.trace = w.trace ++ [Event.ReadAll body] := by
  have := callReadAll_trace rt body w
  rwa [h] at this

/-- C4: when the last attempt (index `RetryTimes - 1`) gets a wrapper response
whose status is not 200, `RoundTrip` returns that very response with a nil
error, and the calls of that attempt are the pick, the encoding and the inner
round trip alone: no decoding, no `ToggleBadServer`, no blacklist write, no
connection discard, no sleep. -/
theorem last_attempt_passes_wrapper_through (rt : Runtime σ) (t : Transport σ) (req : Request)
    (w0 w w1 w2 w3 : World σ) (i : Nat) (server : Server) (req1 : Option Request)
    (resp : Response)
    (hs : attemptStart rt t req w0 i = some w)
    (hlast : (i : Int) = t.RetryTimes - 1)
    (hp : callPickFetchServer t req i w = (server, w1))
    (he : callEncodeRequest t req server w1 = ((req1, none), w2))
    (hr : callRoundTrip t req1 w2 = ((some resp, none), w3))
    (hst : resp.StatusCode ≠ StatusOK) :
    RoundTrip rt t req w0 = some (Outcome.returned (some resp) none, w3) ∧
    w3.trace = w.trace ++ [Event.PickFetchServer req i, Event.EncodeRequest req server,
      Event.RoundTrip req1] := by
  constructor
  · apply RoundTrip_of_done hs
    simp only [attempt, hp, he, hr]
    simp [hst, onWrapperStatus, hlast]
  · simp [trace_of_callRoundTrip hr, trace_of_callEncodeRequest he,
      trace_of_callPickFetchServer hp]

theorem last_attempt_passes_wrapper_through_witness :
    RoundTrip (scriptedRuntime overloadedThenNotFoundScript)
        (scriptedTransport overloadedThenNotFoundScript 2) sampleRequest emptyWorld =
      some (Outcome.returned (some (rawResponse 404)) none,
        ⟨1, [Event.PickFetchServer sampleRequest 0, Event.EncodeRequest sampleRequest ⟨"appid"⟩,
          Event.RoundTrip (some sampleEncoded), Event.ToggleBadServer ⟨"appid"⟩,
          Event.Sleep 1000,
          Event.PickFetchServer sampleRequest 1, Event.EncodeRequest sampleRequest ⟨"appid"⟩,
          Event.RoundTrip (some sampleEncoded)]⟩) :=
  (last_attempt_passes_wrapper_through (scriptedRuntime overloadedThenNotFoundScript)
    (scriptedTransport overloadedThenNotFoundScript 2) sampleRequest emptyWorld
    ⟨0, [Event.PickFetchServer sampleRequest 0, Event.EncodeRequest sampleRequest ⟨"appid"⟩,
          Event.RoundTrip (some sampleEncoded), Event.ToggleBadServer ⟨"appid"⟩,
          Event.Sleep 1000]⟩ _ _ _ 1 ⟨"appid"⟩ (some sampleEncoded) (rawResponse 404)
    (by decide) (by decide) rfl rfl rfl (by decide)).1

/-- C2 (the code at the failing input): with `RetryTimes = 1`, a wrapper
response of status 200 and a decoder that succeeds with a decoded response,
`RoundTrip` returns the wrapper response, which is not the decoded response
with its `Request` set to the original request. -/
theorem last_attempt_returns_wrapper_not_decoded :
    RoundTrip (scriptedRuntime okScript) (scriptedTransport okScript 1) sampleRequest
        emptyWorld =
      some (Outcome.returned (some (rawResponse 200)) none,
        ⟨0, [Event.PickFetchServer sampleRequest 0, Event.EncodeRequest sampleRequest ⟨"appid"⟩,
          Event.RoundTrip (some sampleEncoded), Event.DecodeResponse (rawResponse 200)]⟩) ∧
    okScript.decode 0 = (some (decodedResponse 200), none) ∧
    rawResponse 200 ≠ { decodedResponse 200 with Request := some sampleRequest } := by
  decide

/-- C3 (as stated, refuted): with `RetryTimes = 2` the attempt 0 is not the
last one; it gets the wrapper status 500, and `RoundTrip` returns that response
at once: no attempt 1 begins. -/
theorem other_wrapper_status_returns_counterexample :
    RoundTrip (scriptedRuntime serverErrorScript) (scriptedTransport serverErrorScript 2)
        sampleRequest emptyWorld =
      some (Outcome.returned (some (rawResponse 500)) none,
        ⟨0, [Event.PickFetchServer sampleRequest 0, Event.EncodeRequest sampleRequest ⟨"appid"⟩,
          Event.RoundTrip (some sampleEncoded)]⟩) ∧
    attemptStart (scriptedRuntime serverErrorScript) (scriptedTransport serverErrorScript 2)
        sampleRequest emptyWorld 1 = none := by
  decide

/-- C3 (amended): on an attempt that is not the last one, a wrapper response
whose status is none of 200, 503, 302, 502, 404, 405 is returned by `RoundTrip`
with a nil error on that attempt; the attempt makes no call beyond the pick,
the encoding and the inner round trip (no sleep, no `ToggleBadServer`, no
blacklist write, no decoding), and no further attempt begins. -/
theorem other_wrapper_status_returns (rt : Runtime σ) (t : Transport σ) (req : Request)
    (w0 w w1 w2 w3 : World σ) (i : Nat) (server : Server) (req1 : Option Request)
    (resp : Response)
    (hs : attemptStart rt t req w0 i = some w)
    (hnl : (i : Int) < t.RetryTimes - 1)
    (hp : callPickFetchServer t req i w = (server, w1))
    (he : callEncodeRequest t req server w1 = ((req1, none), w2))
    (hr : callRoundTrip t req1 w2 = ((some resp, none), w3))
    (h200 : resp.StatusCode ≠ StatusOK)
    (h503 : resp.StatusCode ≠ StatusServiceUnavailable)
    (h302 : resp.StatusCode ≠ StatusFound)
    (h502 : resp.StatusCode ≠ StatusBadGateway)
    (h404 : resp.StatusCode ≠ StatusNotFound)
    (h405 : resp.StatusCode ≠ StatusMethodNotAllowed) :
    RoundTrip rt t req w0 = some (Outcome.returned (some resp) none, w3) ∧
    attemptStart rt t req w0 (i + 1) = none ∧
    w3.trace = w.trace ++ [Event.PickFetchServer req i, Event.EncodeRequest req server,
      Event.RoundTrip req1] := by
  have hne : (i : Int) ≠ t.RetryTimes - 1 := by omega
  have hstep : attempt rt t req i w = Step.done (Outcome.returned (some resp) none) w3 := by
    simp only [attempt, hp, he, hr]
    simp [h200, h503, h302, h502, h404, h405, onWrapperStatus, hne]
  refine ⟨RoundTrip_of_done hs hstep, ?_, ?_⟩
  · simp only [attemptStart, hs, hstep]
  · simp [trace_of_callRoundTrip hr, trace_of_callEncodeRequest he,
      trace_of_callPickFetchServer hp]

theorem other_wrapper_status_returns_witness :
    RoundTrip (scriptedRuntime serverErrorScript) (scriptedTransport serverErrorScript 3)
        sampleRequest emptyWorld =
      some (Outcome.returned (some (rawResponse 500)) none,
        ⟨0, [Event.PickFetchServer sampleRequest 0, Event.EncodeRequest sampleRequest ⟨"appid"⟩,
          Event.RoundTrip (some sampleEncoded)]⟩) :=
  (other_wrapper_status_returns (scriptedRuntime serverErrorScript)
    (scriptedTransport serverErrorScript 3) sampleRequest emptyWorld emptyWorld _ _ _ 0
    ⟨"appid"⟩ (some sampleEncoded) (rawResponse 500)
    (by decide) (by decide) rfl rfl rfl (by decide) (by decide) (by decide) (by decide)
    (by decide) (by decide)).1

/-- C5: encoding and decoding failures are not retried.  When `EncodeRequest`
fails on attempt `i`, `RoundTrip` returns an error there, the attempt makes no
inner round trip (its calls are the pick and the encoding), and the whole run
has made exactly `i` inner round trips.  When `DecodeResponse` fails on attempt
`i`, `RoundTrip` returns an error there and attempt `i + 1` never begins. -/
theorem encode_decode_failures_not_retried (rt : Runtime σ) (t : Transport σ) (req : Request)
    (w0 w w1 : World σ) (i : Nat) (server : Server)
    (hs : attemptStart rt t req w0 i = some w)
    (hp : callPickFetchServer t req i w = (server, w1)) :
    (∀ (req1 : Option Request) (e : GoError) (w2 : World σ),
      callEncodeRequest t req server w1 = ((req1, some e), w2) →
        (∃ err, RoundTrip rt t req w0 = some (Outcome.returned none (some err), w2)) ∧
        w2.trace = w.trace ++ [Event.PickFetchServer req i, Event.EncodeRequest req server] ∧
        performCalls w2.trace = performCalls w0.trace + i ∧
        attemptStart rt t req w0 (i + 1) = none) ∧
    (∀ (req1 : Option Request) (resp : Response) (resp1 : Option Response) (e : GoError)
        (w2 w3 w4 : World σ),
      callEncodeRequest t req server w1 = ((req1, none), w2) →
      callRoundTrip t req1 w2 = ((some resp, none), w3) →
      resp.StatusCode = StatusOK →
      callDecodeResponse t resp w3 = ((resp1, some e), w4) →
        (∃ err, RoundTrip rt t req w0 = some (Outcome.returned none (some err), w4)) ∧
        attemptStart rt t req w0 (i + 1) = none ∧
        w4.trace = w.trace ++ [Event.PickFetchServer req i, Event.EncodeRequest req server,
          Event.RoundTrip req1, Event.DecodeResponse resp]) := by
  constructor
  · intro req1 e w2 he
    have hstep : attempt rt t req i w = Step.done
        (Outcome.returned none (some (Errorf ("GAE EncodeRequest: " ++ e.Error)))) w2 := by
      simp only [attempt, hp, he]
    have htr : w2.trace =
        w.trace ++ [Event.PickFetchServer req i, Event.EncodeRequest req server] := by
      simp [trace_of_callEncodeRequest he, trace_of_callPickFetchServer hp]
    refine ⟨⟨_, RoundTrip_of_done hs hstep⟩, htr, ?_, ?_⟩
    · rw [htr, ← attemptStart_performCalls hs]
      simp [performCalls, List.countP_cons, Event.isRoundTrip]
    · simp only [attemptStart, hs, hstep]
  · intro req1 resp resp1 e w2 w3 w4 he hr hst hd
    have hstep : attempt rt t req i w = Step.done (Outcome.returned none (some e)) w4 := by
      simp only [attempt, hp, he, hr, hd]
      simp [hst]
    refine ⟨⟨_, RoundTrip_of_done hs hstep⟩, ?_, ?_⟩
    · simp only [attemptStart, hs, hstep]
    · simp [trace_of_callDecodeResponse hd, trace_of_callRoundTrip hr,
        trace_of_callEncodeRequest he, trace_of_callPickFetchServer hp]

theorem encode_decode_failures_not_retried_witness :
    (performCalls [Event.PickFetchServer sampleRequest 0,
        Event.EncodeRequest sampleRequest ⟨"appid"⟩, Event.RoundTrip (some sampleEncoded),
        Event.ToggleBadServer ⟨"appid"⟩, Event.Sleep 1000,
        Event.PickFetchServer sampleRequest 1, Event.EncodeRequest sampleRequest ⟨"appid"⟩] =
      performCalls emptyWorld.trace + 1) ∧
    attemptStart (scriptedRuntime decodeFailsScript) (scriptedTransport decodeFailsScript 3)
      sampleRequest emptyWorld (0 + 1) = none :=
  ⟨((encode_decode_failures_not_retried (scriptedRuntime encodeFailsSecondScript)
      (scriptedTransport encodeFailsSecondScript 3) sampleRequest emptyWorld
      ⟨0, [Event.PickFetchServer sampleRequest 0, Event.EncodeRequest sampleRequest ⟨"appid"⟩,
        Event.RoundTrip (some sampleEncoded), Event.ToggleBadServer ⟨"appid"⟩,
        Event.Sleep 1000]⟩ _ 1 ⟨"appid"⟩ (by decide) rfl).1 none sampleError _ rfl).2.2.1,
   ((encode_decode_failures_not_retried (scriptedRuntime decodeFailsScript)
      (scriptedTransport decodeFailsScript 3) sampleRequest emptyWorld emptyWorld _ 0 ⟨"appid"⟩
      (by decide) rfl).2 (some sampleEncoded) (rawResponse 200) none sampleError _ _ _
      rfl rfl (by decide) rfl).2.1⟩

/-- C6 (as stated, refuted): `EncodeRequest` fails with the error `boom`, and
the error `RoundTrip` returns is another value, with another message. -/
theorem encode_error_unchanged_counterexample :
    encodeFailsScript.encode 0 = (none, some sampleError) ∧
    RoundTrip (scriptedRuntime encodeFailsScript) (scriptedTransport encodeFailsScript 1)
        sampleRequest emptyWorld =
      some (Outcome.returned none (some ⟨"GAE EncodeRequest: boom", none, none⟩),
        ⟨0, [Event.PickFetchServer sampleRequest 0,
          Event.EncodeRequest sampleRequest ⟨"appid"⟩]⟩) ∧
    (⟨"GAE EncodeRequest: boom", none, none⟩ : GoError) ≠ sampleError := by
  decide

/-- C6 (amended): when `EncodeRequest` fails with the error `e`, `RoundTrip`
returns a new error whose message is `"GAE EncodeRequest: "` followed by the
message of `e`; when `DecodeResponse` fails with the error `e`, `RoundTrip`
returns `e` itself. -/
theorem fatal_errors_reach_caller (rt : Runtime σ) (t : Transport σ) (req : Request)
    (w0 w w1 : World σ) (i : Nat) (server : Server)
    (hs : attemptStart rt t req w0 i = some w)
    (hp : callPickFetchServer t req i w = (server, w1)) :
    (∀ (req1 : Option Request) (e : GoError) (w2 : World σ),
      callEncodeRequest t req server w1 = ((req1, some e), w2) →
        RoundTrip rt t req w0 = some (Outcome.returned none
          (some (Errorf ("GAE EncodeRequest: " ++ e.Error))), w2) ∧
        (Errorf ("GAE EncodeRequest: " ++ e.Error)).Error = "GAE EncodeRequest: " ++ e.Error) ∧
    (∀ (req1 : Option Request) (resp : Response) (resp1 : Option Response) (e : GoError)
        (w2 w3 w4 : World σ),
      callEncodeRequest t req server w1 = ((req1, none), w2) →
      callRoundTrip t req1 w2 = ((some resp, none), w3) →
      resp.StatusCode = StatusOK →
      callDecodeResponse t resp w3 = ((resp1, some e), w4) →
        RoundTrip rt t req w0 = some (Outcome.returned none (some e), w4)) := by
  constructor
  · intro req1 e w2 he
    refine ⟨RoundTrip_of_done hs ?_, rfl⟩
    simp only [attempt, hp, he]
  · intro req1 resp resp1 e w2 w3 w4 he hr hst hd
    apply RoundTrip_of_done hs
    simp only [attempt, hp, he, hr, hd]
    simp [hst]

theorem fatal_errors_reach_caller_witness :
    (Errorf ("GAE EncodeRequest: " ++ sampleError.Error)).Error =
      "GAE EncodeRequest: " ++ sampleError.Error ∧
    RoundTrip (scriptedRuntime decodeFailsScript) (scriptedTransport decodeFailsScript 3)
        sampleRequest emptyWorld =
      some (Outcome.returned none (some sampleError),
        ⟨0, [Event.PickFetchServer sampleRequest 0, Event.EncodeRequest sampleRequest ⟨"appid"⟩,
          Event.RoundTrip (some sampleEncoded), Event.DecodeResponse (rawResponse 200)]⟩) :=
  ⟨((fatal_errors_reach_caller (scriptedRuntime encodeFailsScript)
      (scriptedTransport encodeFailsScript 1) sampleRequest emptyWorld emptyWorld _ 0 ⟨"appid"⟩
      (by decide) rfl).1 none sampleError _ rfl).2,
   (fatal_errors_reach_caller (scriptedRuntime decodeFailsScript)
      (scriptedTransport decodeFailsScript 3) sampleRequest emptyWorld emptyWorld _ 0 ⟨"appid"⟩
      (by decide) rfl).2 (some sampleEncoded) (rawResponse 200) none sampleError _ _ _
      rfl rfl (by decide) rfl⟩

/-- C7: when the inner round trip fails with the error `e`, the connections are
closed if `e` is a timeout and nothing else is called; then on the last attempt
`RoundTrip` returns a nil response and `e` itself, and on any other attempt it
does not return: attempt `i + 1` begins, with no sleep in between. -/
theorem transport_error_last_or_retry (rt : Runtime σ) (t : Transport σ) (req : Request)
    (w0 w w1 w2 w3 : World σ) (i : Nat) (server : Server) (req1 : Option Request)
    (resp : Option Response) (e : GoError)
    (hs : attemptStart rt t req w0 i = some w)
    (hp : callPickFetchServer t req i w = (server, w1))
    (he : callEncodeRequest t req server w1 = ((req1, none), w2))
    (hr : callRoundTrip t req1 w2 = ((resp, some e), w3)) :
    ((i : Int) = t.RetryTimes - 1 →
      RoundTrip rt t req w0 = some (Outcome.returned none (some e),
        if isTimeoutError e then callTryCloseConnections t w3 else w3)) ∧
    ((i : Int) ≠ t.RetryTimes - 1 →
      attemptStart rt t req w0 (i + 1) =
        some (if isTimeoutError e then callTryCloseConnections t w3 else w3)) ∧
    (if isTimeoutError e then callTryCloseConnections t w3 else w3).trace =
      w.trace ++ [Event.PickFetchServer req i, Event.EncodeRequest req server,
        Event.RoundTrip req1] ++ (if isTimeoutError e then [Event.TryCloseConnections] else []) ∧
    sleepCalls (if isTimeoutError e then callTryCloseConnections t w3 else w3).trace =
      sleepCalls w.trace := by
  have htr : (if isTimeoutError e then callTryCloseConnections t w3 else w3).trace =
      w.trace ++ [Event.PickFetchServer req i, Event.EncodeRequest req server,
        Event.RoundTrip req1] ++
        (if isTimeoutError e then [Event.TryCloseConnections] else []) := by
    split <;>
      simp [trace_of_callRoundTrip hr, trace_of_callEncodeRequest he,
        trace_of_callPickFetchServer hp]
  refine ⟨?_, ?_, htr, ?_⟩
  · intro hlast
    apply RoundTrip_of_done hs
    simp only [attempt, hp, he, hr, onTransportError]
    simp [hlast]
  · intro hne
    apply attemptStart_succ hs
    simp only [attempt, hp, he, hr, onTransportError]
    simp [hne]
  · rw [htr]
    split <;> simp [sleepCalls, List.countP_cons, Event.isSleep]

theorem transport_error_last_or_retry_witness :
    RoundTrip (scriptedRuntime transportFailsScript) (scriptedTransport transportFailsScript 2)
        sampleRequest emptyWorld =
      some (Outcome.returned none (some dialRefused),
        ⟨1, [Event.PickFetchServer sampleRequest 0, Event.EncodeRequest sampleRequest ⟨"appid"⟩,
          Event.RoundTrip (some sampleEncoded), Event.TryCloseConnections,
          Event.PickFetchServer sampleRequest 1, Event.EncodeRequest sampleRequest ⟨"appid"⟩,
          Event.RoundTrip (some sampleEncoded)]⟩) :=
  (transport_error_last_or_retry (scriptedRuntime transportFailsScript)
    (scriptedTransport transportFailsScript 2) sampleRequest emptyWorld
    ⟨0, [Event.PickFetchServer sampleRequest 0, Event.EncodeRequest sampleRequest ⟨"appid"⟩,
      Event.RoundTrip (some sampleEncoded), Event.TryCloseConnections]⟩ _ _ _ 1 ⟨"appid"⟩
    (some sampleEncoded) none dialRefused (by decide) rfl rfl rfl).1 (by decide)

/-- C9: on an attempt that is not the last one, with a wrapper status 200 and a
decoded response `r1` of status 502 whose body is read without error as the
bytes `b`, where `b` holds none of the three markers, `RoundTrip` returns `r1`
with a nil error; the body of the returned response, read in full, gives
exactly `b` (whatever `b` is, empty or not), its status and header are those of
`r1`, and its request is the original one. -/
theorem unmarked_bad_gateway_body_round_trip (rt : Runtime σ) (t : Transport σ)
    (req : Request) (w0 w w1 w2 w3 w4 w5 : World σ) (i : Nat) (server : Server)
    (req1 : Option Request) (resp r1 : Response) (b : Bytes)
    (hs : attemptStart rt t req w0 i = some w)
    (hnl : (i : Int) < t.RetryTimes - 1)
    (hp : callPickFetchServer t req i w = (server, w1))
    (he : callEncodeRequest t req server w1 = ((req1, none), w2))
    (hr : callRoundTrip t req1 w2 = ((some resp, none), w3))
    (hst : resp.StatusCode = StatusOK)
    (hd : callDecodeResponse t resp w3 = ((some r1, none), w4))
    (h502 : r1.StatusCode = StatusBadGateway)
    (hb : callReadAll rt r1.Body w4 = ((b, none), w5))
    (hD : Contains b (bytesOf "DEADLINE_EXCEEDED") = false)
    (hQ : Contains b (bytesOf "ver quota") = false)
    (hC : Contains b (bytesOf "urlfetch: CLOSED") = false) :
    ∃ ret : Response,
      RoundTrip rt t req w0 =
        some (Outcome.returned (some ret) none, callClose rt r1.Body w5) ∧
      ret = { r1 with Request := some req, Body := Body.nopCloser b } ∧
      (∀ (rt1 : Runtime σ) (wc : World σ), (callReadAll rt1 ret.Body wc).1 = (b, none)) ∧
      ret.StatusCode = r1.StatusCode ∧ ret.Header = r1.Header ∧ ret.Request = some req := by
  have hne : (i : Int) ≠ t.RetryTimes - 1 := by omega
  refine ⟨{ r1 with Request := some req, Body := Body.nopCloser b }, ?_, rfl, ?_, rfl, rfl, rfl⟩
  · apply RoundTrip_of_done hs
    simp only [attempt, hp, he, hr, hd]
    simp [hst, onDecoded, hne, h502, hb, hD, hQ, hC]
  · intro rt1 wc
    rfl

theorem unmarked_bad_gateway_body_round_trip_witness :
    ∃ ret : Response,
      RoundTrip (scriptedRuntime (badGatewayScript (bytesOf "upstream failure")))
          (scriptedTransport (badGatewayScript (bytesOf "upstream failure")) 2)
          sampleRequest emptyWorld =
        some (Outcome.returned (some ret) none,
          callClose (scriptedRuntime (badGatewayScript (bytesOf "upstream failure")))
            (decodedResponse 502).Body
            ⟨0, [Event.PickFetchServer sampleRequest 0,
              Event.EncodeRequest sampleRequest ⟨"appid"⟩,
              Event.RoundTrip (some sampleEncoded), Event.DecodeResponse (rawResponse 200),
              Event.ReadAll (Body.stream 1)]⟩) ∧
      ret = { decodedResponse 502 with
        Request := some sampleRequest, Body := Body.nopCloser (bytesOf "upstream failure") } ∧
      (∀ (rt1 : Runtime Nat) (wc : World Nat),
        (callReadAll rt1 ret.Body wc).1 = (bytesOf "upstream failure", none)) ∧
      ret.StatusCode = (decodedResponse 502).StatusCode ∧
      ret.Header = (decodedResponse 502).Header ∧ ret.Request = some sampleRequest :=
  unmarked_bad_gateway_body_round_trip
    (scriptedRuntime (badGatewayScript (bytesOf "upstream failure")))
    (scriptedTransport (badGatewayScript (bytesOf "upstream failure")) 2)
    sampleRequest emptyWorld emptyWorld _ _ _ _ _ 0 ⟨"appid"⟩ (some sampleEncoded)
    (rawResponse 200) (decodedResponse 502) (bytesOf "upstream failure")
    (by decide) (by decide) rfl rfl rfl (by decide) rfl (by decide) rfl
    (by decide) (by decide) (by decide)

theorem Contains_of_infix {b s1 s2 : Bytes} (h12 : s1 <:+: s2)
    (h : Contains b s2 = true) : Contains b s1 = true :=
  (Contains_iff b s1).2 (h12.trans ((Contains_iff b s2).1 h))

theorem ver_quota_infix_over_quota : bytesOf "ver quota" <:+: bytesOf "over quota" :=
  ⟨[111], [], by decide⟩

/-- C10 (as stated, refuted): attempt 0 of 2 decodes a 502 whose body holds
`"over quota"` and also `"DEADLINE_EXCEEDED"`; attempt 1 follows with no sleep
in between, and the whole run holds no sleep at all. -/
theorem over_quota_sleep_counterexample :
    Contains (bytesOf "DEADLINE_EXCEEDED over quota") (bytesOf "over quota") = true ∧
    RoundTrip (scriptedRuntime (badGatewayScript (bytesOf "DEADLINE_EXCEEDED over quota")))
        (scriptedTransport (badGatewayScript (bytesOf "DEADLINE_EXCEEDED over quota")) 2)
        sampleRequest emptyWorld =
      some (Outcome.returned (some (rawResponse 200)) none,
        ⟨1, [Event.PickFetchServer sampleRequest 0, Event.EncodeRequest sampleRequest ⟨"appid"⟩,
          Event.RoundTrip (some sampleEncoded), Event.DecodeResponse (rawResponse 200),
          Event.ReadAll (Body.stream 1), Event.Close (Body.stream 1),
          Event.PickFetchServer sampleRequest 1, Event.EncodeRequest sampleRequest ⟨"appid"⟩,
          Event.RoundTrip (some sampleEncoded), Event.DecodeResponse (rawResponse 200)]⟩) := by
  decide

/-- C10 (amended): on an attempt that is not the last one, when the encoded
request is not nil, the decoded response has status 502 and its body is read
without error and holds `"over quota"` and does not hold `"DEADLINE_EXCEEDED"`,
the attempt ends with a sleep of `RetryDelay` and the next attempt begins right
after that sleep; every later call of the run, the next inner round trip
included, comes after the sleep in the trace. -/
theorem over_quota_sleeps_before_next_attempt (rt : Runtime σ) (t : Transport σ)
    (req : Request) (w0 w w1 w2 w3 w4 w5 : World σ) (i : Nat) (server : Server)
    (q1 : Request) (resp r1 : Response) (b : Bytes)
    (hs : attemptStart rt t req w0 i = some w)
    (hnl : (i : Int) < t.RetryTimes - 1)
    (hp : callPickFetchServer t req i w = (server, w1))
    (he : callEncodeRequest t req server w1 = ((some q1, none), w2))
    (hr : callRoundTrip t (some q1) w2 = ((some resp, none), w3))
    (hst : resp.StatusCode = StatusOK)
    (hd : callDecodeResponse t resp w3 = ((some r1, none), w4))
    (h502 : r1.StatusCode = StatusBadGateway)
    (hb : callReadAll rt r1.Body w4 = ((b, none), w5))
    (hO : Contains b (bytesOf "over quota") = true)
    (hD : Contains b (bytesOf "DEADLINE_EXCEEDED") = false) :
    attemptStart rt t req w0 (i + 1) =
      some (callSleep rt t.RetryDelay (callClose rt r1.Body w5)) ∧
    (callSleep rt t.RetryDelay (callClose rt r1.Body w5)).trace =
      w.trace ++ [Event.PickFetchServer req i, Event.EncodeRequest req server,
        Event.RoundTrip (some q1), Event.DecodeResponse resp, Event.ReadAll r1.Body,
        Event.Close r1.Body, Event.Sleep t.RetryDelay] ∧
    (∀ (o : Outcome) (wf : World σ), RoundTrip rt t req w0 = some (o, wf) →
      w.trace ++ [Event.PickFetchServer req i, Event.EncodeRequest req server,
        Event.RoundTrip (some q1), Event.DecodeResponse resp, Event.ReadAll r1.Body,
        Event.Close r1.Body, Event.Sleep t.RetryDelay] <+: wf.trace) := by
  have hne : (i : Int) ≠ t.RetryTimes - 1 := by omega
  have hQ : Contains b (bytesOf "ver quota") = true :=
    Contains_of_infix ver_quota_infix_over_quota hO
  have hnext : attemptStart rt t req w0 (i + 1) =
      some (callSleep rt t.RetryDelay (callClose rt r1.Body w5)) := by
    apply attemptStart_succ hs
    simp only [attempt, hp, he, hr, hd]
    simp [hst, onDecoded, logHost, hne, h502, hb, hD, hQ]
  have htr : (callSleep rt t.RetryDelay (callClose rt r1.Body w5)).trace =
      w.trace ++ [Event.PickFetchServer req i, Event.EncodeRequest req server,
        Event.RoundTrip (some q1), Event.DecodeResponse resp, Event.ReadAll r1.Body,
        Event.Close r1.Body, Event.Sleep t.RetryDelay] := by
    simp [trace_of_callReadAll hb, trace_of_callDecodeResponse hd, trace_of_callRoundTrip hr,
      trace_of_callEncodeRequest he, trace_of_callPickFetchServer hp]
  refine ⟨hnext, htr, ?_⟩
  intro o wf hf
  rw [← htr]
  exact attemptStart_trace_grows hnext hf

theorem over_quota_sleeps_before_next_attempt_witness :
    attemptStart (scriptedRuntime (badGatewayScript (bytesOf "urlfetch: over quota")))
        (scriptedTransport (badGatewayScript (bytesOf "urlfetch: over quota")) 2)
        sampleRequest emptyWorld (0 + 1) =
      some (callSleep (scriptedRuntime (badGatewayScript (bytesOf "urlfetch: over quota")))
        (scriptedTransport (badGatewayScript (bytesOf "urlfetch: over quota")) 2).RetryDelay
        (callClose (scriptedRuntime (badGatewayScript (bytesOf "urlfetch: over quota")))
          (decodedResponse 502).Body
          ⟨0, [Event.PickFetchServer sampleRequest 0,
            Event.EncodeRequest sampleRequest ⟨"appid"⟩,
            Event.RoundTrip (some sampleEncoded), Event.DecodeResponse (rawResponse 200),
            Event.ReadAll (Body.stream 1)]⟩)) :=
  (over_quota_sleeps_before_next_attempt
    (scriptedRuntime (badGatewayScript (bytesOf "urlfetch: over quota")))
    (scriptedTransport (badGatewayScript (bytesOf "urlfetch: over quota")) 2)
    sampleRequest emptyWorld emptyWorld _ _ _ _ _ 0 ⟨"appid"⟩ sampleEncoded
    (rawResponse 200) (decodedResponse 502) (bytesOf "urlfetch: over quota")
    (by decide) (by decide) rfl rfl rfl (by decide) rfl (by decide) rfl
    (by decide) (by decide)).1

/-! ### Every way out of a pass gives one outcome -/

theorem callRoundTrip_fst (t : Transport σ) (req1 : Option Request) (w : World σ) :
    (callRoundTrip t req1 w).1 = (t.RoundTripper.RoundTrip req1 w.st).1 := rfl

theorem callDecodeResponse_fst (t : Transport σ) (resp : Response) (w : World σ) :
    (callDecodeResponse t resp w).1 = (t.Servers.DecodeResponse resp w.st).1 := rfl

theorem onTransportError_done {t : Transport σ} {i : Int} {err : GoError} {w w1 : World σ}
    {o : Outcome} (h : onTransportError t i err w = Step.done o w1) :
    o = Outcome.returned none (some err) := by
  unfold onTransportError at h
  simp only at h
  split at h
  · simp only [Step.done.injEq] at h
    exact h.1.symm
  · simp at h

theorem onWrapperStatus_done {rt : Runtime σ} {t : Transport σ} {i : Int} {server : Server}
    {resp : Response} {w w1 : World σ} {o : Outcome}
    (h : onWrapperStatus rt t i server resp w = Step.done o w1) :
    o = Outcome.returned (some resp) none := by
  unfold onWrapperStatus at h
  split at h
  · simp only [Step.done.injEq] at h
    exact h.1.symm
  · split at h
    · simp at h
    · split at h
      · simp at h
      · simp only [Step.done.injEq] at h
        exact h.1.symm

theorem onDecoded_done {rt : Runtime σ} {t : Transport σ} {req : Request} {i : Int}
    {q1 : Request} {resp r1 : Response} {w w1 : World σ} {o : Outcome}
    (h : onDecoded rt t req i (some q1) resp (some r1) w = Step.done o w1) :
    o.exactlyOne = true := by
  unfold onDecoded logHost at h
  simp only [Option.map_some'] at h
  split at h
  · simp only [Step.done.injEq] at h
    rw [← h.1]; rfl
  · split at h
    · split at h
      · simp only [Step.done.injEq] at h
        rw [← h.1]; rfl
      · split at h
        · simp at h
        · split at h
          · simp at h
          · split at h
            · simp at h
            · simp only [Step.done.injEq] at h
              rw [← h.1]; rfl
    · simp only [Step.done.injEq] at h
      rw [← h.1]; rfl

theorem callEncodeRequest_fst (t : Transport σ) (req : Request) (server : Server)
    (w : World σ) :
    (callEncodeRequest t req server w).1 = (t.Servers.EncodeRequest req server w.st).1 := rfl

/-- A pass that leaves the function leaves it with a response or with an
error, never with both and never with neither, when none of the encoder, the
inner round tripper and the decoder answers a nil pointer with a nil error. -/
theorem attempt_done_exactlyOne {rt : Runtime σ} {t : Transport σ} {req : Request} {i : Int}
    {w w1 : World σ} {o : Outcome} (hE : EncodeYieldsRequest t)
    (hP : PerformYieldsResponse t)
    (hD : DecodeYieldsResponse t) (h : attempt rt t req i w = Step.done o w1) :
    o.exactlyOne = true := by
  rcases hp : callPickFetchServer t req i w with ⟨server, wa⟩
  rcases he : callEncodeRequest t req server wa with ⟨⟨req1, eerr⟩, wb⟩
  cases eerr with
  | some e =>
    simp only [attempt, hp, he, Step.done.injEq] at h
    rw [← h.1]; rfl
  | none =>
    rcases hr : callRoundTrip t req1 wb with ⟨⟨resp, rerr⟩, wc⟩
    cases rerr with
    | some e =>
      simp only [attempt, hp, he, hr] at h
      rw [onTransportError_done h]; rfl
    | none =>
      cases resp with
      | none =>
        have h1 := callRoundTrip_fst t req1 wb
        rw [hr] at h1
        exact absurd (congrArg Prod.fst h1).symm (hP req1 wb.st (congrArg Prod.snd h1).symm)
      | some resp =>
        by_cases hst : resp.StatusCode ≠ StatusOK
        · simp only [attempt, hp, he, hr, if_pos hst] at h
          rw [onWrapperStatus_done h]; rfl
        · rcases hd : callDecodeResponse t resp wc with ⟨⟨resp1, derr⟩, wd⟩
          cases derr with
          | some e =>
            simp only [attempt, hp, he, hr, if_neg hst, hd, Step.done.injEq] at h
            rw [← h.1]; rfl
          | none =>
            cases resp1 with
            | none =>
              have h1 := callDecodeResponse_fst t resp wc
              rw [hd] at h1
              exact absurd (congrArg Prod.fst h1).symm
                (hD resp wc.st (congrArg Prod.snd h1).symm)
            | some r1 =>
              cases req1 with
              | none =>
                have h1 := callEncodeRequest_fst t req server wa
                rw [he] at h1
                exact absurd (congrArg Prod.fst h1).symm
                  (hE req server wa.st (congrArg Prod.snd h1).symm)
              | some q1 =>
                simp only [attempt, hp, he, hr, if_neg hst, hd] at h
                exact onDecoded_done h

theorem loop_exactlyOne (rt : Runtime σ) (t : Transport σ) (req : Request)
    (hE : EncodeYieldsRequest t) (hP : PerformYieldsResponse t)
    (hD : DecodeYieldsResponse t) :
    ∀ (fuel : Nat) (i : Int) (w : World σ), t.RetryTimes ≤ i + fuel →
      ∃ o wf, loop rt t req fuel i w = some (o, wf) ∧ o.exactlyOne = true := by
  intro fuel
  induction fuel with
  | zero =>
    intro i w h
    have : ¬ i < t.RetryTimes := by omega
    exact ⟨Outcome.returned none (some (cannotReachHere req)), w,
      by simp only [loop, if_neg this], rfl⟩
  | succ k ih =>
    intro i w h
    by_cases hi : i < t.RetryTimes
    · rw [loop_succ_of_lt hi]
      cases hstep : attempt rt t req i w with
      | next w1 => exact ih (i + 1) w1 (by push_cast at h; omega)
      | done o w1 => exact ⟨o, w1, rfl, attempt_done_exactlyOne hE hP hD hstep⟩
    · exact ⟨Outcome.returned none (some (cannotReachHere req)), w,
        by simp only [loop, if_neg hi], rfl⟩

/-! ### The last pass -/

/-- The pass with index `RetryTimes - 1` always leaves the function; after the
pick it encodes at most once, makes at most one inner round trip, and neither
sleeps, nor picks again, nor deprioritizes a server, nor writes to the
blacklist; it returns unless the inner round tripper answers a nil response
with a nil error. -/
theorem attempt_last (rt : Runtime σ) (t : Transport σ) (req : Request) (i : Int)
    (w : World σ) (hlast : i = t.RetryTimes - 1) :
    ∃ (o : Outcome) (w1 : World σ) (evs : List Event),
      attempt rt t req i w = Step.done o w1 ∧
      w1.trace = w.trace ++ Event.PickFetchServer req i :: evs ∧
      evs.countP Event.isPickFetchServer = 0 ∧
      evs.countP Event.isEncodeRequest ≤ 1 ∧
      performCalls evs ≤ 1 ∧
      sleepCalls evs = 0 ∧
      evs.countP Event.isToggleBadServer = 0 ∧
      evs.countP Event.isIPBlackListSet = 0 ∧
      (PerformYieldsResponse t → ∃ resp err, o = Outcome.returned resp err) := by
  rcases hp : callPickFetchServer t req i w with ⟨server, wa⟩
  rcases he : callEncodeRequest t req server wa with ⟨⟨req1, eerr⟩, wb⟩
  have ta := trace_of_callPickFetchServer hp
  have tb := trace_of_callEncodeRequest he
  cases eerr with
  | some e =>
    refine ⟨Outcome.returned none (some (Errorf ("GAE EncodeRequest: " ++ e.Error))), wb,
      [Event.EncodeRequest req server], by simp only [attempt, hp, he],
      by simp [ta, tb], ?_⟩
    simp [List.countP_cons, performCalls, sleepCalls, Event.isPickFetchServer,
      Event.isEncodeRequest, Event.isRoundTrip, Event.isSleep, Event.isToggleBadServer,
      Event.isIPBlackListSet]
  | none =>
    rcases hr : callRoundTrip t req1 wb with ⟨⟨resp, rerr⟩, wc⟩
    have tc := trace_of_callRoundTrip hr
    cases rerr with
    | some e =>
      by_cases hto : isTimeoutError e = true
      · refine ⟨Outcome.returned none (some e), callTryCloseConnections t wc,
          [Event.EncodeRequest req server, Event.RoundTrip req1, Event.TryCloseConnections],
          by simp only [attempt, hp, he, hr, onTransportError, hto, if_pos hlast, if_true],
          by simp [ta, tb, tc], ?_⟩
        simp [List.countP_cons, performCalls, sleepCalls, Event.isPickFetchServer,
          Event.isEncodeRequest, Event.isRoundTrip, Event.isSleep, Event.isToggleBadServer,
          Event.isIPBlackListSet]
      · refine ⟨Outcome.returned none (some e), wc,
          [Event.EncodeRequest req server, Event.RoundTrip req1],
          by simp only [attempt, hp, he, hr, onTransportError, hto, if_pos hlast]; simp,
          by simp [ta, tb, tc], ?_⟩
        simp [List.countP_cons, performCalls, sleepCalls, Event.isPickFetchServer,
          Event.isEncodeRequest, Event.isRoundTrip, Event.isSleep, Event.isToggleBadServer,
          Event.isIPBlackListSet]
    | none =>
      cases resp with
      | none =>
        refine ⟨Outcome.panicked, wc, [Event.EncodeRequest req server, Event.RoundTrip req1],
          by simp only [attempt, hp, he, hr], by simp [ta, tb, tc], ?_⟩
        refine ⟨?_, ?_, ?_, ?_, ?_, ?_, ?_⟩ <;>
          try simp [List.countP_cons, performCalls, sleepCalls, Event.isPickFetchServer,
            Event.isEncodeRequest, Event.isRoundTrip, Event.isSleep, Event.isToggleBadServer,
            Event.isIPBlackListSet]
        intro hP
        have h1 := callRoundTrip_fst t req1 wb
        rw [hr] at h1
        exact absurd (congrArg Prod.fst h1).symm (hP req1 wb.st (congrArg Prod.snd h1).symm)
      | some resp =>
        by_cases hst : resp.StatusCode ≠ StatusOK
        · refine ⟨Outcome.returned (some resp) none, wc,
            [Event.EncodeRequest req server, Event.RoundTrip req1],
            by simp only [attempt, hp, he, hr, if_pos hst, onWrapperStatus, if_pos hlast],
            by simp [ta, tb, tc], ?_⟩
          simp [List.countP_cons, performCalls, sleepCalls, Event.isPickFetchServer,
            Event.isEncodeRequest, Event.isRoundTrip, Event.isSleep, Event.isToggleBadServer,
            Event.isIPBlackListSet]
        · rcases hd : callDecodeResponse t resp wc with ⟨⟨resp1, derr⟩, wd⟩
          have td := trace_of_callDecodeResponse hd
          cases derr with
          | some e =>
            refine ⟨Outcome.returned none (some e), wd,
              [Event.EncodeRequest req server, Event.RoundTrip req1,
                Event.DecodeResponse resp],
              by simp only [attempt, hp, he, hr, if_neg hst, hd],
              by simp [ta, tb, tc, td], ?_⟩
            simp [List.countP_cons, performCalls, sleepCalls, Event.isPickFetchServer,
              Event.isEncodeRequest, Event.isRoundTrip, Event.isSleep, Event.isToggleBadServer,
              Event.isIPBlackListSet]
          | none =>
            refine ⟨Outcome.returned (some resp) none, wd,
              [Event.EncodeRequest req server, Event.RoundTrip req1,
                Event.DecodeResponse resp],
              by simp only [attempt, hp, he, hr, if_neg hst, hd, onDecoded, if_pos hlast],
              by simp [ta, tb, tc, td], ?_⟩
            simp [List.countP_cons, performCalls, sleepCalls, Event.isPickFetchServer,
              Event.isEncodeRequest, Event.isRoundTrip, Event.isSleep, Event.isToggleBadServer,
              Event.isIPBlackListSet]

/-- C1 (the code at the failing input): with `RetryTimes = 2`, an inner round
tripper that answers every call with a response and a decoder that answers
attempt 0 with a nil response and a nil error, the guard of line 96 is skipped
and line 103 dereferences the nil `resp1`: the call ends in a panic and returns
neither a response nor an error. -/
theorem nil_decoded_response_panics :
    PerformYieldsResponse (scriptedTransport nilDecodeScript 2) ∧
    nilDecodeScript.decode 0 = (none, none) ∧
    RoundTrip (scriptedRuntime nilDecodeScript) (scriptedTransport nilDecodeScript 2)
        sampleRequest emptyWorld =
      some (Outcome.panicked,
        ⟨0, [Event.PickFetchServer sampleRequest 0, Event.EncodeRequest sampleRequest ⟨"appid"⟩,
          Event.RoundTrip (some sampleEncoded), Event.DecodeResponse (rawResponse 200)]⟩) ∧
    Outcome.panicked.exactlyOne = false :=
  ⟨fun _ _ _ => by simp [scriptedTransport, scriptedRoundTripper, nilDecodeScript, okScript],
    rfl, by decide, rfl⟩

/-- With a nil encoded request, a decoded 502 whose body holds
`"DEADLINE_EXCEEDED"` ends the call in a panic on attempt 0 of 2: the log call
of line 113 reads `req1.Host` after the body was closed. -/
theorem nil_encoded_request_panics_at_marker :
    RoundTrip (scriptedRuntime nilEncodeMarkerScript)
        (scriptedTransport nilEncodeMarkerScript 2) sampleRequest emptyWorld =
      some (Outcome.panicked,
        ⟨0, [Event.PickFetchServer sampleRequest 0, Event.EncodeRequest sampleRequest ⟨"appid"⟩,
          Event.RoundTrip none, Event.DecodeResponse (rawResponse 200),
          Event.ReadAll (Body.stream 1), Event.Close (Body.stream 1)]⟩) := by
  decide

/-- For every `RetryTimes` and all collaborators among which none of the
encoder, the inner round tripper and the decoder answers a nil pointer with a
nil error, `RoundTrip` returns, and what it returns is a response with a nil
error or a nil response with an error. -/
theorem returns_exactly_one_outcome_of_no_nil (rt : Runtime σ) (t : Transport σ)
    (req : Request) (w0 : World σ) (hE : EncodeYieldsRequest t)
    (hP : PerformYieldsResponse t) (hD : DecodeYieldsResponse t) :
    ∃ (o : Outcome) (wf : World σ), RoundTrip rt t req w0 = some (o, wf) ∧
      ((∃ resp, o = Outcome.returned (some resp) none) ∨
        (∃ err, o = Outcome.returned none (some err))) := by
  obtain ⟨o, wf, h, hone⟩ :=
    loop_exactlyOne rt t req hE hP hD t.RetryTimes.toNat 0 w0 (by simp [Int.self_le_toNat])
  refine ⟨o, wf, h, ?_⟩
  cases o with
  | panicked => simp [Outcome.exactlyOne] at hone
  | returned resp err =>
    cases resp <;> cases err <;> simp [Outcome.exactlyOne] at hone ⊢

/-- C8 (as stated, refuted): with `RetryTimes = 1` and an inner round tripper
that answers a nil response with a nil error, the call does not return: it
ends in a nil dereference. -/
theorem single_attempt_counterexample :
    (scriptedTransport nilPerformScript 1).RetryTimes = 1 ∧
    RoundTrip (scriptedRuntime nilPerformScript) (scriptedTransport nilPerformScript 1)
        sampleRequest emptyWorld =
      some (Outcome.panicked,
        ⟨0, [Event.PickFetchServer sampleRequest 0, Event.EncodeRequest sampleRequest ⟨"appid"⟩,
          Event.RoundTrip (some sampleEncoded)]⟩) := by
  decide

/-- C8 (amended): with `RetryTimes = 1` and all collaborators among which the
inner round tripper never answers a nil response with a nil error, `RoundTrip`
returns after the first attempt: the calls of the run begin with the one pick,
of index 0, and hold after it no other pick, at most one encoding, at most one
inner round trip, no sleep, no `ToggleBadServer` and no blacklist write. -/
theorem single_attempt_returns_at_once (rt : Runtime σ) (t : Transport σ) (req : Request)
    (w0 : World σ) (h1 : t.RetryTimes = 1) (hP : PerformYieldsResponse t) :
    ∃ (resp : Option Response) (err : Option GoError) (wf : World σ) (evs : List Event),
      RoundTrip rt t req w0 = some (Outcome.returned resp err, wf) ∧
      attemptStart rt t req w0 1 = none ∧
      wf.trace = w0.trace ++ Event.PickFetchServer req 0 :: evs ∧
      evs.countP Event.isPickFetchServer = 0 ∧
      evs.countP Event.isEncodeRequest ≤ 1 ∧
      performCalls evs ≤ 1 ∧
      sleepCalls evs = 0 ∧
      evs.countP Event.isToggleBadServer = 0 ∧
      evs.countP Event.isIPBlackListSet = 0 := by
  have hs : attemptStart rt t req w0 0 = some w0 := by simp [attemptStart, h1]
  obtain ⟨o, w1, evs, hstep, htr, hc⟩ :=
    attempt_last rt t req ((0 : Nat) : Int) w0 (by simp [h1])
  obtain ⟨resp, err, ho⟩ := hc.2.2.2.2.2.2 hP
  subst ho
  exact ⟨resp, err, w1, evs, RoundTrip_of_done hs hstep, attemptStart_succ_none hs hstep,
    by simpa using htr, hc.1, hc.2.1, hc.2.2.1, hc.2.2.2.1, hc.2.2.2.2.1, hc.2.2.2.2.2.1⟩

theorem single_attempt_returns_at_once_witness :
    (scriptedTransport overloadedThenNotFoundScript 1).RetryTimes = 1 ∧
    PerformYieldsResponse (scriptedTransport overloadedThenNotFoundScript 1) ∧
    ∃ (resp : Option Response) (err : Option GoError) (wf : World Nat) (evs : List Event),
      RoundTrip (scriptedRuntime overloadedThenNotFoundScript)
        (scriptedTransport overloadedThenNotFoundScript 1) sampleRequest emptyWorld =
        some (Outcome.returned resp err, wf) ∧
      attemptStart (scriptedRuntime overloadedThenNotFoundScript)
        (scriptedTransport overloadedThenNotFoundScript 1) sampleRequest emptyWorld 1 = none ∧
      wf.trace = emptyWorld.trace ++ Event.PickFetchServer sampleRequest 0 :: evs ∧
      evs.countP Event.isPickFetchServer = 0 ∧
      evs.countP Event.isEncodeRequest ≤ 1 ∧
      performCalls evs ≤ 1 ∧
      sleepCalls evs = 0 ∧
      evs.countP Event.isToggleBadServer = 0 ∧
      evs.countP Event.isIPBlackListSet = 0 :=
  have hP : PerformYieldsResponse (scriptedTransport overloadedThenNotFoundScript 1) := by
    intro _ n h
    by_cases hn : n = 0 <;>
      simp [scriptedTransport, scriptedRoundTripper, overloadedThenNotFoundScript, hn]
  ⟨rfl, hP, single_attempt_returns_at_once _ _ sampleRequest emptyWorld rfl hP⟩

/-! ### The branches of the loop body -/

/-- Case analysis on the loop body: the pass ends in the encoding error, goes
on in `onTransportError`, panics on a nil response, goes on in
`onWrapperStatus`, ends in the decoding error, or goes on in `onDecoded`. -/
theorem attempt_elim (rt : Runtime σ) (t : Transport σ) (req : Request) (i : Int)
    (w : World σ) (motive : Step σ → Prop)
    (encodeError : ∀ (server : Server) (wa : World σ) (req1 : Option Request) (e : GoError)
      (wb : World σ), callPickFetchServer t req i w = (server, wa) →
      callEncodeRequest t req server wa = ((req1, some e), wb) →
      motive (Step.done
        (Outcome.returned none (some (Errorf ("GAE EncodeRequest: " ++ e.Error)))) wb))
    (transportError : ∀ (server : Server) (wa : World σ) (req1 : Option Request)
      (wb : World σ) (resp : Option Response) (e : GoError) (wc : World σ),
      callPickFetchServer t req i w = (server, wa) →
      callEncodeRequest t req server wa = ((req1, none), wb) →
      callRoundTrip t req1 wb = ((resp, some e), wc) →
      motive (onTransportError t i e wc))
    (nilResponse : ∀ (server : Server) (wa : World σ) (req1 : Option Request)
      (wb wc : World σ),
      callPickFetchServer t req i w = (server, wa) →
      callEncodeRequest t req server wa = ((req1, none), wb) →
      callRoundTrip t req1 wb = ((none, none), wc) →
      motive (Step.done Outcome.panicked wc))
    (wrapperStatus : ∀ (server : Server) (wa : World σ) (req1 : Option Request)
      (wb : World σ) (resp : Response) (wc : World σ),
      callPickFetchServer t req i w = (server, wa) →
      callEncodeRequest t req server wa = ((req1, none), wb) →
      callRoundTrip t req1 wb = ((some resp, none), wc) →
      resp.StatusCode ≠ StatusOK →
      motive (onWrapperStatus rt t i server resp wc))
    (decodeError : ∀ (server : Server) (wa : World σ) (req1 : Option Request)
      (wb : World σ) (resp : Response) (wc : World σ) (resp1 : Option Response) (e : GoError)
      (wd : World σ),
      callPickFetchServer t req i w = (server, wa) →
      callEncodeRequest t req server wa = ((req1, none), wb) →
      callRoundTrip t req1 wb = ((some resp, none), wc) →
      resp.StatusCode = StatusOK →
      callDecodeResponse t resp wc = ((resp1, some e), wd) →
      motive (Step.done (Outcome.returned none (some e)) wd))
    (decoded : ∀ (server : Server) (wa : World σ) (req1 : Option Request)
      (wb : World σ) (resp : Response) (wc : World σ) (resp1 : Option Response)
      (wd : World σ),
      callPickFetchServer t req i w = (server, wa) →
      callEncodeRequest t req server wa = ((req1, none), wb) →
      callRoundTrip t req1 wb = ((some resp, none), wc) →
      resp.StatusCode = StatusOK →
      callDecodeResponse t resp wc = ((resp1, none), wd) →
      motive (onDecoded rt t req i req1 resp resp1 wd)) :
    motive (attempt rt t req i w) := by
  rcases hp : callPickFetchServer t req i w with ⟨server, wa⟩
  rcases he : callEncodeRequest t req server wa with ⟨⟨req1, eerr⟩, wb⟩
  cases eerr with
  | some e =>
    have h := encodeError server wa req1 e wb hp he
    simpa only [attempt, hp, he] using h
  | none =>
    rcases hr : callRoundTrip t req1 wb with ⟨⟨resp, rerr⟩, wc⟩
    cases rerr with
    | some e =>
      have h := transportError server wa req1 wb resp e wc hp he hr
      simpa only [attempt, hp, he, hr] using h
    | none =>
      cases resp with
      | none =>
        have h := nilResponse server wa req1 wb wc hp he hr
        simpa only [attempt, hp, he, hr] using h
      | some resp =>
        by_cases hst : resp.StatusCode ≠ StatusOK
        · have h := wrapperStatus server wa req1 wb resp wc hp he hr hst
          simpa only [attempt, hp, he, hr, if_pos hst] using h
        · rcases hd : callDecodeResponse t resp wc with ⟨⟨resp1, derr⟩, wd⟩
          cases derr with
          | some e =>
            have h := decodeError server wa req1 wb resp wc resp1 e wd hp he hr
              (not_not.mp hst) hd
            simpa only [attempt, hp, he, hr, if_neg hst, hd] using h
          | none =>
            have h := decoded server wa req1 wb resp wc resp1 wd hp he hr
              (not_not.mp hst) hd
            simpa only [attempt, hp, he, hr, if_neg hst, hd] using h

/-- The world in which a pass ends is part of the world in which the call
ends. -/
theorem attempt_world_trace_le_final {rt : Runtime σ} {t : Transport σ} {req : Request}
    {w0 w wf : World σ} {i : Nat} {o : Outcome}
    (hs : attemptStart rt t req w0 i = some w)
    (hf : RoundTrip rt t req w0 = some (o, wf)) :
    (attempt rt t req (i : Int) w).world.trace <+: wf.trace := by
  have hlt := attemptStart_lt hs
  have hk : t.RetryTimes.toNat - i = (t.RetryTimes.toNat - (i + 1)) + 1 := by omega
  rw [RoundTrip_eq_loop hs, hk, loop_succ_of_lt hlt] at hf
  cases hstep : attempt rt t req (i : Int) w with
  | next w1 =>
    rw [hstep] at hf
    exact loop_trace_grows rt t req _ _ _ _ _ hf
  | done o1 w1 =>
    rw [hstep] at hf
    simp only [Option.some.injEq, Prod.mk.injEq] at hf
    rw [← hf.2]
    exact List.prefix_refl _

/-- Every pass begins with the pick of a server for its index. -/
theorem attempt_pick_grows (rt : Runtime σ) (t : Transport σ) (req : Request) (i : Int)
    (w : World σ) :
    w.trace ++ [Event.PickFetchServer req i] <+: (attempt rt t req i w).world.trace := by
  refine attempt_elim rt t req i w
    (fun s => w.trace ++ [Event.PickFetchServer req i] <+: s.world.trace) ?_ ?_ ?_ ?_ ?_ ?_
  · intro server wa req1 e wb hp he
    simp [Step.world, trace_of_callEncodeRequest he, trace_of_callPickFetchServer hp]
  · intro server wa req1 wb resp e wc hp he hr
    refine List.IsPrefix.trans ?_ (onTransportError_trace_grows t i e wc)
    simp [trace_of_callRoundTrip hr, trace_of_callEncodeRequest he,
      trace_of_callPickFetchServer hp]
  · intro server wa req1 wb wc hp he hr
    simp [Step.world, trace_of_callRoundTrip hr, trace_of_callEncodeRequest he,
      trace_of_callPickFetchServer hp]
  · intro server wa req1 wb resp wc hp he hr _
    refine List.IsPrefix.trans ?_ (onWrapperStatus_trace_grows rt t i server resp wc)
    simp [trace_of_callRoundTrip hr, trace_of_callEncodeRequest he,
      trace_of_callPickFetchServer hp]
  · intro server wa req1 wb resp wc resp1 e wd hp he hr _ hd
    simp [Step.world, trace_of_callDecodeResponse hd, trace_of_callRoundTrip hr,
      trace_of_callEncodeRequest he, trace_of_callPickFetchServer hp]
  · intro server wa req1 wb resp wc resp1 wd hp he hr _ hd
    refine List.IsPrefix.trans ?_ (onDecoded_trace_grows rt t req i req1 resp resp1 wd)
    simp [trace_of_callDecodeResponse hd, trace_of_callRoundTrip hr,
      trace_of_callEncodeRequest he, trace_of_callPickFetchServer hp]

/-- A pass whose encoding succeeds goes on to the inner round trip. -/
theorem attempt_perform_grows {rt : Runtime σ} {t : Transport σ} {req : Request} {i : Int}
    {w wa wb : World σ} {server : Server} {req1 : Option Request}
    (hp : callPickFetchServer t req i w = (server, wa))
    (he : callEncodeRequest t req server wa = ((req1, none), wb)) :
    w.trace ++ [Event.PickFetchServer req i, Event.EncodeRequest req server,
      Event.RoundTrip req1] <+: (attempt rt t req i w).world.trace := by
  have hpre : w.trace ++ [Event.PickFetchServer req i, Event.EncodeRequest req server,
      Event.RoundTrip req1] = (callRoundTrip t req1 wb).2.trace := by
    simp [trace_of_callEncodeRequest he, trace_of_callPickFetchServer hp]
  rw [hpre]
  rcases hr : callRoundTrip t req1 wb with ⟨⟨resp, rerr⟩, wc⟩
  cases rerr with
  | some e =>
    simp only [attempt, hp, he, hr]
    exact onTransportError_trace_grows t i e wc
  | none =>
    cases resp with
    | none =>
      simp only [attempt, hp, he, hr]
      exact List.prefix_refl _
    | some resp =>
      by_cases hst : resp.StatusCode ≠ StatusOK
      · simp only [attempt, hp, he, hr, if_pos hst]
        exact onWrapperStatus_trace_grows rt t i server resp wc
      · rcases hd : callDecodeResponse t resp wc with ⟨⟨resp1, derr⟩, wd⟩
        cases derr with
        | some e =>
          simp only [attempt, hp, he, hr, if_neg hst, hd, Step.world,
            trace_of_callDecodeResponse hd]
          exact List.prefix_append _ _
        | none =>
          simp only [attempt, hp, he, hr, if_neg hst, hd]
          refine List.IsPrefix.trans ?_ (onDecoded_trace_grows rt t req i req1 resp resp1 wd)
          rw [trace_of_callDecodeResponse hd]
          exact List.prefix_append _ _

/-- C11 (as stated, refuted): attempt 0 of 2 decodes a 502 whose body gives
the bytes of `"DEADLINE_EXCEEDED"` and then a read error; the call returns that
error at once (lines 106-109) and attempt 1 never begins. -/
theorem deadline_exceeded_read_error_counterexample :
    markerReadFailsScript.readAll 0 = (bytesOf "DEADLINE_EXCEEDED", some sampleError) ∧
    Contains (bytesOf "DEADLINE_EXCEEDED") (bytesOf "DEADLINE_EXCEEDED") = true ∧
    RoundTrip (scriptedRuntime markerReadFailsScript)
        (scriptedTransport markerReadFailsScript 2) sampleRequest emptyWorld =
      some (Outcome.returned none (some sampleError),
        ⟨0, [Event.PickFetchServer sampleRequest 0, Event.EncodeRequest sampleRequest ⟨"appid"⟩,
          Event.RoundTrip (some sampleEncoded), Event.DecodeResponse (rawResponse 200),
          Event.ReadAll (Body.stream 1), Event.Close (Body.stream 1)]⟩) ∧
    attemptStart (scriptedRuntime markerReadFailsScript)
        (scriptedTransport markerReadFailsScript 2) sampleRequest emptyWorld 1 = none := by
  decide

/-- C11 (amended): on an attempt that is not the last one, when the encoded
request is not nil, the decoded response has status 502 and its body is read
without error and holds `"DEADLINE_EXCEEDED"` (whatever else it holds), attempt
`i + 1` begins right after the body is closed, with no sleep in between; and
when the encoding of that attempt succeeds, the run goes on to another inner
round trip. -/
theorem deadline_exceeded_retries_at_once (rt : Runtime σ) (t : Transport σ)
    (req : Request) (w0 w w1 w2 w3 w4 w5 : World σ) (i : Nat) (server : Server)
    (q1 : Request) (resp r1 : Response) (b : Bytes)
    (hs : attemptStart rt t req w0 i = some w)
    (hnl : (i : Int) < t.RetryTimes - 1)
    (hp : callPickFetchServer t req i w = (server, w1))
    (he : callEncodeRequest t req server w1 = ((some q1, none), w2))
    (hr : callRoundTrip t (some q1) w2 = ((some resp, none), w3))
    (hst : resp.StatusCode = StatusOK)
    (hd : callDecodeResponse t resp w3 = ((some r1, none), w4))
    (h502 : r1.StatusCode = StatusBadGateway)
    (hb : callReadAll rt r1.Body w4 = ((b, none), w5))
    (hD : Contains b (bytesOf "DEADLINE_EXCEEDED") = true) :
    attemptStart rt t req w0 (i + 1) = some (callClose rt r1.Body w5) ∧
    (callClose rt r1.Body w5).trace =
      w.trace ++ [Event.PickFetchServer req i, Event.EncodeRequest req server,
        Event.RoundTrip (some q1), Event.DecodeResponse resp, Event.ReadAll r1.Body,
        Event.Close r1.Body] ∧
    sleepCalls (callClose rt r1.Body w5).trace = sleepCalls w.trace ∧
    (∀ (server2 : Server) (wa wb : World σ) (req2 : Option Request) (o : Outcome)
        (wf : World σ),
      callPickFetchServer t req ((i + 1 : Nat) : Int) (callClose rt r1.Body w5) =
        (server2, wa) →
      callEncodeRequest t req server2 wa = ((req2, none), wb) →
      RoundTrip rt t req w0 = some (o, wf) →
      (callClose rt r1.Body w5).trace ++ [Event.PickFetchServer req ((i + 1 : Nat) : Int),
        Event.EncodeRequest req server2, Event.RoundTrip req2] <+: wf.trace) := by
  have hne : (i : Int) ≠ t.RetryTimes - 1 := by omega
  have hnext : attemptStart rt t req w0 (i + 1) = some (callClose rt r1.Body w5) := by
    apply attemptStart_succ hs
    simp only [attempt, hp, he, hr, hd]
    simp [hst, onDecoded, logHost, hne, h502, hb, hD]
  have htr : (callClose rt r1.Body w5).trace =
      w.trace ++ [Event.PickFetchServer req i, Event.EncodeRequest req server,
        Event.RoundTrip (some q1), Event.DecodeResponse resp, Event.ReadAll r1.Body,
        Event.Close r1.Body] := by
    simp [trace_of_callReadAll hb, trace_of_callDecodeResponse hd, trace_of_callRoundTrip hr,
      trace_of_callEncodeRequest he, trace_of_callPickFetchServer hp]
  refine ⟨hnext, htr, ?_, ?_⟩
  · rw [htr]
    simp [sleepCalls, List.countP_cons, Event.isSleep]
  · intro server2 wa wb req2 o wf hp2 he2 hf
    exact (attempt_perform_grows hp2 he2).trans (attempt_world_trace_le_final hnext hf)

theorem deadline_exceeded_retries_at_once_witness :
    sleepCalls (callClose (scriptedRuntime
        (badGatewayScript (bytesOf "DEADLINE_EXCEEDED over quota")))
      (decodedResponse 502).Body
      ⟨0, [Event.PickFetchServer sampleRequest 0, Event.EncodeRequest sampleRequest ⟨"appid"⟩,
        Event.RoundTrip (some sampleEncoded), Event.DecodeResponse (rawResponse 200),
        Event.ReadAll (Body.stream 1)]⟩).trace = sleepCalls emptyWorld.trace :=
  (deadline_exceeded_retries_at_once
    (scriptedRuntime (badGatewayScript (bytesOf "DEADLINE_EXCEEDED over quota")))
    (scriptedTransport (badGatewayScript (bytesOf "DEADLINE_EXCEEDED over quota")) 2)
    sampleRequest emptyWorld emptyWorld _ _ _ _ _ 0 ⟨"appid"⟩ sampleEncoded
    (rawResponse 200) (decodedResponse 502) (bytesOf "DEADLINE_EXCEEDED over quota")
    (by decide) (by decide) rfl rfl rfl (by decide) rfl (by decide) rfl
    (by decide)).2.2.1

/-- C12: on an attempt that is not the last one, a wrapper status 503 makes the
attempt call `ToggleBadServer` once, with the server that `PickFetchServer`
gave for this attempt, then sleep `RetryDelay` once; the next attempt begins
there, and its first call is `PickFetchServer` with the index `i + 1`. -/
theorem overloaded_deprioritizes_sleeps_retries (rt : Runtime σ) (t : Transport σ)
    (req : Request) (w0 w w1 w2 w3 : World σ) (i : Nat) (server : Server)
    (req1 : Option Request) (resp : Response)
    (hs : attemptStart rt t req w0 i = some w)
    (hnl : (i : Int) < t.RetryTimes - 1)
    (hp : callPickFetchServer t req i w = (server, w1))
    (he : callEncodeRequest t req server w1 = ((req1, none), w2))
    (hr : callRoundTrip t req1 w2 = ((some resp, none), w3))
    (h503 : resp.StatusCode = StatusServiceUnavailable) :
    attemptStart rt t req w0 (i + 1) =
      some (callSleep rt t.RetryDelay (callToggleBadServer t server w3)) ∧
    (callSleep rt t.RetryDelay (callToggleBadServer t server w3)).trace =
      w.trace ++ [Event.PickFetchServer req i, Event.EncodeRequest req server,
        Event.RoundTrip req1, Event.ToggleBadServer server, Event.Sleep t.RetryDelay] ∧
    (∀ (o : Outcome) (wf : World σ), RoundTrip rt t req w0 = some (o, wf) →
      w.trace ++ [Event.PickFetchServer req i, Event.EncodeRequest req server,
        Event.RoundTrip req1, Event.ToggleBadServer server, Event.Sleep t.RetryDelay,
        Event.PickFetchServer req ((i + 1 : Nat) : Int)] <+: wf.trace) := by
  have hne : (i : Int) ≠ t.RetryTimes - 1 := by omega
  have h200 : resp.StatusCode ≠ StatusOK := by rw [h503]; decide
  have hnext : attemptStart rt t req w0 (i + 1) =
      some (callSleep rt t.RetryDelay (callToggleBadServer t server w3)) := by
    apply attemptStart_succ hs
    simp only [attempt, hp, he, hr, if_pos h200]
    simp [onWrapperStatus, hne, h503]
  have htr : (callSleep rt t.RetryDelay (callToggleBadServer t server w3)).trace =
      w.trace ++ [Event.PickFetchServer req i, Event.EncodeRequest req server,
        Event.RoundTrip req1, Event.ToggleBadServer server, Event.Sleep t.RetryDelay] := by
    simp [trace_of_callRoundTrip hr, trace_of_callEncodeRequest he,
      trace_of_callPickFetchServer hp]
  refine ⟨hnext, htr, ?_⟩
  intro o wf hf
  have h1 := (attempt_pick_grows rt t req ((i + 1 : Nat) : Int) _).trans
    (attempt_world_trace_le_final hnext hf)
  rw [htr] at h1
  simpa [List.append_assoc] using h1

theorem overloaded_deprioritizes_sleeps_retries_witness :
    attemptStart (scriptedRuntime overloadedThenNotFoundScript)
        (scriptedTransport overloadedThenNotFoundScript 2) sampleRequest emptyWorld (0 + 1) =
      some (callSleep (scriptedRuntime overloadedThenNotFoundScript)
        (scriptedTransport overloadedThenNotFoundScript 2).RetryDelay
        (callToggleBadServer (scriptedTransport overloadedThenNotFoundScript 2) ⟨"appid"⟩
          ⟨0, [Event.PickFetchServer sampleRequest 0,
            Event.EncodeRequest sampleRequest ⟨"appid"⟩,
            Event.RoundTrip (some sampleEncoded)]⟩)) :=
  (overloaded_deprioritizes_sleeps_retries (scriptedRuntime overloadedThenNotFoundScript)
    (scriptedTransport overloadedThenNotFoundScript 2) sampleRequest emptyWorld emptyWorld
    _ _ _ 0 ⟨"appid"⟩ (some sampleEncoded) (rawResponse 503)
    (by decide) (by decide) rfl rfl rfl (by decide)).1

/-- C13: on an attempt that is not the last one, with a wrapper status 200 and
a decoded response `r1` whose status is not 502, `RoundTrip` returns `r1` with
its request set to the original one and a nil error; the attempt calls the
pick, the encoding, the inner round trip and the decoding and nothing else (the
body is not read), and no further attempt begins. -/
theorem decoded_other_status_returned (rt : Runtime σ) (t : Transport σ)
    (req : Request) (w0 w w1 w2 w3 w4 : World σ) (i : Nat) (server : Server)
    (req1 : Option Request) (resp r1 : Response)
    (hs : attemptStart rt t req w0 i = some w)
    (hnl : (i : Int) < t.RetryTimes - 1)
    (hp : callPickFetchServer t req i w = (server, w1))
    (he : callEncodeRequest t req server w1 = ((req1, none), w2))
    (hr : callRoundTrip t req1 w2 = ((some resp, none), w3))
    (hst : resp.StatusCode = StatusOK)
    (hd : callDecodeResponse t resp w3 = ((some r1, none), w4))
    (hn502 : r1.StatusCode ≠ StatusBadGateway) :
    RoundTrip rt t req w0 =
      some (Outcome.returned (some { r1 with Request := some req }) none, w4) ∧
    w4.trace = w.trace ++ [Event.PickFetchServer req i, Event.EncodeRequest req server,
      Event.RoundTrip req1, Event.DecodeResponse resp] ∧
    attemptStart rt t req w0 (i + 1) = none := by
  have hne : (i : Int) ≠ t.RetryTimes - 1 := by omega
  have hstep : attempt rt t req i w =
      Step.done (Outcome.returned (some { r1 with Request := some req }) none) w4 := by
    simp only [attempt, hp, he, hr, hd]
    simp [hst, onDecoded, hne, hn502]
  refine ⟨RoundTrip_of_done hs hstep, ?_, attemptStart_succ_none hs hstep⟩
  simp [trace_of_callDecodeResponse hd, trace_of_callRoundTrip hr,
    trace_of_callEncodeRequest he, trace_of_callPickFetchServer hp]

theorem decoded_other_status_returned_witness :
    RoundTrip (scriptedRuntime okScript) (scriptedTransport okScript 2) sampleRequest
        emptyWorld =
      some (Outcome.returned
        (some { decodedResponse 200 with Request := some sampleRequest }) none,
        ⟨0, [Event.PickFetchServer sampleRequest 0, Event.EncodeRequest sampleRequest ⟨"appid"⟩,
          Event.RoundTrip (some sampleEncoded), Event.DecodeResponse (rawResponse 200)]⟩) :=
  (decoded_other_status_returned (scriptedRuntime okScript) (scriptedTransport okScript 2)
    sampleRequest emptyWorld emptyWorld _ _ _ _ 0 ⟨"appid"⟩ (some sampleEncoded)
    (rawResponse 200) (decodedResponse 200)
    (by decide) (by decide) rfl rfl rfl (by decide) rfl (by decide)).1

theorem isTimeoutError_iff (e : GoError) :
    isTimeoutError e = true ↔ (e.Timeout = some true ∨ e.OpErrorOp = some "read") := by
  simp [isTimeoutError]

/-- C17: when the inner round trip of an attempt (last or not) fails with the
error `e`: if `e` has a `Timeout` method that answers true, or `e` is a
`*net.OpError` whose `Op` is `"read"`, the attempt calls `TryCloseConnections`
exactly once, as its last call; otherwise it does not call it.  The return (on
the last attempt) and the next attempt (otherwise) come after that call. -/
theorem timeout_closes_connections_once (rt : Runtime σ) (t : Transport σ) (req : Request)
    (w0 w w1 w2 w3 : World σ) (i : Nat) (server : Server) (req1 : Option Request)
    (resp : Option Response) (e : GoError)
    (hs : attemptStart rt t req w0 i = some w)
    (hp : callPickFetchServer t req i w = (server, w1))
    (he : callEncodeRequest t req server w1 = ((req1, none), w2))
    (hr : callRoundTrip t req1 w2 = ((resp, some e), w3)) :
    ((e.Timeout = some true ∨ e.OpErrorOp = some "read") →
      (attempt rt t req i w).world = callTryCloseConnections t w3 ∧
      (attempt rt t req i w).world.trace =
        w.trace ++ [Event.PickFetchServer req i, Event.EncodeRequest req server,
          Event.RoundTrip req1, Event.TryCloseConnections] ∧
      List.countP Event.isTryCloseConnections (attempt rt t req i w).world.trace =
        List.countP Event.isTryCloseConnections w.trace + 1) ∧
    (¬ (e.Timeout = some true ∨ e.OpErrorOp = some "read") →
      (attempt rt t req i w).world = w3 ∧
      (attempt rt t req i w).world.trace =
        w.trace ++ [Event.PickFetchServer req i, Event.EncodeRequest req server,
          Event.RoundTrip req1] ∧
      List.countP Event.isTryCloseConnections (attempt rt t req i w).world.trace =
        List.countP Event.isTryCloseConnections w.trace) ∧
    ((i : Int) = t.RetryTimes - 1 →
      RoundTrip rt t req w0 =
        some (Outcome.returned none (some e), (attempt rt t req i w).world)) ∧
    ((i : Int) ≠ t.RetryTimes - 1 →
      attemptStart rt t req w0 (i + 1) = some (attempt rt t req i w).world) := by
  have hstep : attempt rt t req i w = onTransportError t i e w3 := by
    simp only [attempt, hp, he, hr]
  have htr : w3.trace = w.trace ++ [Event.PickFetchServer req i,
      Event.EncodeRequest req server, Event.RoundTrip req1] := by
    simp [trace_of_callRoundTrip hr, trace_of_callEncodeRequest he,
      trace_of_callPickFetchServer hp]
  refine ⟨?_, ?_, ?_, ?_⟩
  · intro hto
    have hto1 := (isTimeoutError_iff e).2 hto
    have hw : (attempt rt t req i w).world = callTryCloseConnections t w3 := by
      rw [hstep]
      unfold onTransportError
      simp only [hto1, if_true]
      split <;> rfl
    refine ⟨hw, ?_, ?_⟩
    · rw [hw]
      simp [htr]
    · rw [hw]
      simp [htr, List.countP_cons, Event.isTryCloseConnections]
  · intro hto
    have hto1 : ¬ isTimeoutError e = true := fun h => hto ((isTimeoutError_iff e).1 h)
    have hw : (attempt rt t req i w).world = w3 := by
      rw [hstep]
      unfold onTransportError
      simp only [hto1]
      split <;> rfl
    refine ⟨hw, ?_, ?_⟩
    · rw [hw, htr]
    · rw [hw, htr]
      simp [List.countP_cons, Event.isTryCloseConnections]
  · intro hlast
    apply RoundTrip_of_done hs
    rw [hstep]
    simp [onTransportError, hlast, Step.world]
  · intro hne
    apply attemptStart_succ hs
    rw [hstep]
    simp [onTransportError, hne, Step.world]

theorem timeout_closes_connections_once_witness :
    (attempt (scriptedRuntime transportFailsScript) (scriptedTransport transportFailsScript 2)
        sampleRequest ((0 : Nat) : Int) emptyWorld).world.trace =
      emptyWorld.trace ++ [Event.PickFetchServer sampleRequest ((0 : Nat) : Int),
        Event.EncodeRequest sampleRequest ⟨"appid"⟩, Event.RoundTrip (some sampleEncoded),
        Event.TryCloseConnections] ∧
    (attempt (scriptedRuntime transportFailsScript) (scriptedTransport transportFailsScript 2)
        sampleRequest ((1 : Nat) : Int)
        ⟨0, [Event.PickFetchServer sampleRequest 0,
          Event.EncodeRequest sampleRequest ⟨"appid"⟩, Event.RoundTrip (some sampleEncoded),
          Event.TryCloseConnections]⟩).world = ⟨1, [Event.PickFetchServer sampleRequest 0,
          Event.EncodeRequest sampleRequest ⟨"appid"⟩, Event.RoundTrip (some sampleEncoded),
          Event.TryCloseConnections, Event.PickFetchServer sampleRequest 1,
          Event.EncodeRequest sampleRequest ⟨"appid"⟩,
          Event.RoundTrip (some sampleEncoded)]⟩ :=
  ⟨((timeout_closes_connections_once (scriptedRuntime transportFailsScript)
      (scriptedTransport transportFailsScript 2) sampleRequest emptyWorld emptyWorld _ _ _ 0
      ⟨"appid"⟩ (some sampleEncoded) none readTimeout (by decide) rfl rfl rfl).1
      (by decide)).2.1,
   ((timeout_closes_connections_once (scriptedRuntime transportFailsScript)
      (scriptedTransport transportFailsScript 2) sampleRequest emptyWorld
      ⟨0, [Event.PickFetchServer sampleRequest 0, Event.EncodeRequest sampleRequest ⟨"appid"⟩,
        Event.RoundTrip (some sampleEncoded), Event.TryCloseConnections]⟩ _ _ _ 1
      ⟨"appid"⟩ (some sampleEncoded) none dialRefused (by decide) rfl rfl rfl).2.1
      (by decide)).1⟩

/-- C20: on an attempt that is not the last one, with a decoded response `r1`
of status 502: when reading its body fails with the error `e`, the body is
closed once, `RoundTrip` returns a nil response with `e`, and neither a sleep
nor another attempt follows; when reading succeeds, the body is closed once,
right after the read and whatever the bytes hold, and the attempt ends there
or after one sleep. -/
theorem bad_gateway_body_closed_once (rt : Runtime σ) (t : Transport σ)
    (req : Request) (w0 w w1 w2 w3 w4 : World σ) (i : Nat) (server : Server)
    (req1 : Option Request) (resp r1 : Response)
    (hs : attemptStart rt t req w0 i = some w)
    (hnl : (i : Int) < t.RetryTimes - 1)
    (hp : callPickFetchServer t req i w = (server, w1))
    (he : callEncodeRequest t req server w1 = ((req1, none), w2))
    (hr : callRoundTrip t req1 w2 = ((some resp, none), w3))
    (hst : resp.StatusCode = StatusOK)
    (hd : callDecodeResponse t resp w3 = ((some r1, none), w4))
    (h502 : r1.StatusCode = StatusBadGateway) :
    (∀ (b : Bytes) (e : GoError) (w5 : World σ),
      callReadAll rt r1.Body w4 = ((b, some e), w5) →
        RoundTrip rt t req w0 =
          some (Outcome.returned none (some e), callClose rt r1.Body w5) ∧
        (callClose rt r1.Body w5).trace =
          w.trace ++ [Event.PickFetchServer req i, Event.EncodeRequest req server,
            Event.RoundTrip req1, Event.DecodeResponse resp, Event.ReadAll r1.Body,
            Event.Close r1.Body] ∧
        attemptStart rt t req w0 (i + 1) = none) ∧
    (∀ (b : Bytes) (w5 : World σ),
      callReadAll rt r1.Body w4 = ((b, none), w5) →
        ((attempt rt t req i w).world = callClose rt r1.Body w5 ∨
          (attempt rt t req i w).world =
            callSleep rt t.RetryDelay (callClose rt r1.Body w5)) ∧
        (callClose rt r1.Body w5).trace =
          w.trace ++ [Event.PickFetchServer req i, Event.EncodeRequest req server,
            Event.RoundTrip req1, Event.DecodeResponse resp, Event.ReadAll r1.Body,
            Event.Close r1.Body] ∧
        List.countP Event.isClose (attempt rt t req i w).world.trace =
          List.countP Event.isClose w.trace + 1) := by
  have hne : (i : Int) ≠ t.RetryTimes - 1 := by omega
  have htr : ∀ (r : Bytes × Option GoError) (w5 : World σ),
      callReadAll rt r1.Body w4 = (r, w5) →
      (callClose rt r1.Body w5).trace =
        w.trace ++ [Event.PickFetchServer req i, Event.EncodeRequest req server,
          Event.RoundTrip req1, Event.DecodeResponse resp, Event.ReadAll r1.Body,
          Event.Close r1.Body] := by
    intro r w5 hb
    simp [trace_of_callReadAll hb, trace_of_callDecodeResponse hd, trace_of_callRoundTrip hr,
      trace_of_callEncodeRequest he, trace_of_callPickFetchServer hp]
  constructor
  · intro b e w5 hb
    have hstep : attempt rt t req i w =
        Step.done (Outcome.returned none (some e)) (callClose rt r1.Body w5) := by
      simp only [attempt, hp, he, hr, hd]
      simp [hst, onDecoded, hne, h502, hb]
    exact ⟨RoundTrip_of_done hs hstep, htr _ _ hb, attemptStart_succ_none hs hstep⟩
  · intro b w5 hb
    have hcl := htr _ _ hb
    have hw : (attempt rt t req i w).world = callClose rt r1.Body w5 ∨
        (attempt rt t req i w).world =
          callSleep rt t.RetryDelay (callClose rt r1.Body w5) := by
      simp only [attempt, hp, he, hr, hd]
      simp only [hst, onDecoded, hne, h502, hb, Option.map_some', if_true, if_false,
        ne_eq, not_true_eq_false]
      cases req1 <;> split_ifs <;> simp [logHost, Step.world]
    refine ⟨hw, hcl, ?_⟩
    rcases hw with hw | hw
    · rw [hw, hcl]
      simp [List.countP_cons, Event.isClose]
    · rw [hw, callSleep_trace, hcl]
      simp [List.countP_cons, Event.isClose]

theorem bad_gateway_body_closed_once_witness :
    RoundTrip (scriptedRuntime readFailsScript) (scriptedTransport readFailsScript 2)
        sampleRequest emptyWorld =
      some (Outcome.returned none (some sampleError),
        callClose (scriptedRuntime readFailsScript) (decodedResponse 502).Body
          ⟨0, [Event.PickFetchServer sampleRequest 0,
            Event.EncodeRequest sampleRequest ⟨"appid"⟩,
            Event.RoundTrip (some sampleEncoded), Event.DecodeResponse (rawResponse 200),
            Event.ReadAll (Body.stream 1)]⟩) :=
  ((bad_gateway_body_closed_once (scriptedRuntime readFailsScript)
    (scriptedTransport readFailsScript 2) sampleRequest emptyWorld emptyWorld _ _ _ _ 0
    ⟨"appid"⟩ (some sampleEncoded) (rawResponse 200) (decodedResponse 502)
    (by decide) (by decide) rfl rfl rfl (by decide) rfl (by decide)).1
    [] sampleError _ rfl).1

/-! ### Counting calls of one kind -/

theorem onTransportError_countP (p : Event → Bool) (t : Transport σ) (i : Int)
    (err : GoError) (w : World σ) (h : p Event.TryCloseConnections = false) :
    List.countP p (onTransportError t i err w).world.trace = List.countP p w.trace := by
  unfold onTransportError
  simp only
  split <;> split <;> simp [Step.world, List.countP_cons, h]

theorem blacklistRemote_countP (p : Event → Bool) (rt : Runtime σ) (t : Transport σ)
    (resp : Response) (w : World σ)
    (hReflect : ∀ r, p (Event.ReflectRemoteAddrFromResponse r) = false)
    (hNow : p Event.Now = false)
    (hSet : ∀ ip expiry, p (Event.IPBlackListSet ip expiry) = false)
    (hClose : ∀ addr, p (Event.TryCloseConnectionByRemoteAddr addr) = false) :
    List.countP p (blacklistRemote rt t resp w).trace = List.countP p w.trace := by
  unfold blacklistRemote
  split
  · rfl
  · simp only
    split
    · simp [List.countP_cons, hReflect]
    · split <;> simp [List.countP_cons, hReflect, hNow, hSet, hClose]

theorem blacklistRemote_of_none (rt : Runtime σ) (t : Transport σ) (resp : Response)
    (w : World σ) (hMD : t.MultiDialer = none) : blacklistRemote rt t resp w = w := by
  unfold blacklistRemote
  rw [hMD]

theorem onDecoded_countP (p : Event → Bool) (rt : Runtime σ) (t : Transport σ)
    (req : Request) (i : Int) (req1 : Option Request) (resp : Response)
    (resp1 : Option Response) (w : World σ)
    (hRead : ∀ b, p (Event.ReadAll b) = false)
    (hClose : ∀ b, p (Event.Close b) = false)
    (hSleep : ∀ d, p (Event.Sleep d) = false) :
    List.countP p (onDecoded rt t req i req1 resp resp1 w).world.trace =
      List.countP p w.trace := by
  rcases onDecoded_world rt t req i req1 resp resp1 w with h | ⟨body, h | h⟩ <;>
    rw [h] <;> simp [List.countP_cons, hRead, hClose, hSleep]

theorem onWrapperStatus_countP (p : Event → Bool) (rt : Runtime σ) (t : Transport σ)
    (i : Int) (server : Server) (resp : Response) (w : World σ)
    (hToggle : ∀ s, p (Event.ToggleBadServer s) = false)
    (hSleep : ∀ d, p (Event.Sleep d) = false)
    (hB : List.countP p (blacklistRemote rt t resp w).trace = List.countP p w.trace) :
    List.countP p (onWrapperStatus rt t i server resp w).world.trace =
      List.countP p w.trace := by
  unfold onWrapperStatus
  split
  · rfl
  · split
    · simp [Step.world, List.countP_cons, hToggle, hSleep]
    · split
      · simpa [Step.world] using hB
      · rfl

/-- What a longer trace adds to a shorter one holds no call of a kind of which
both hold as many. -/
theorem countP_added_eq_zero {p : Event → Bool} {tr evs : List Event}
    (h : List.countP p (tr ++ evs) = List.countP p tr) : List.countP p evs = 0 := by
  rw [List.countP_append] at h
  omega

theorem pickIndices_append (a b : List Event) :
    pickIndices (a ++ b) = pickIndices a ++ pickIndices b := by
  induction a with
  | nil => rfl
  | cons e tr ih =>
    cases e <;> simp [pickIndices, ih]

theorem pickIndices_of_countP_eq_zero (evs : List Event)
    (h : List.countP Event.isPickFetchServer evs = 0) : pickIndices evs = [] := by
  induction evs with
  | nil => rfl
  | cons e tr ih =>
    cases e <;> simp_all [pickIndices, List.countP_cons, Event.isPickFetchServer]

/-! ### The run ends inside the loop -/

theorem loop_ends_in_attempt (rt : Runtime σ) (t : Transport σ) (req : Request)
    (w0 : World σ) :
    ∀ (fuel i : Nat) (w : World σ), attemptStart rt t req w0 i = some w →
      t.RetryTimes ≤ (i : Int) + fuel →
      ∃ (k : Nat) (wk : World σ) (o : Outcome) (wf : World σ),
        attemptStart rt t req w0 k = some wk ∧
        attempt rt t req (k : Int) wk = Step.done o wf ∧
        loop rt t req fuel (i : Int) w = some (o, wf) := by
  intro fuel
  induction fuel with
  | zero =>
    intro i w hs h
    have := attemptStart_lt hs
    omega
  | succ n ih =>
    intro i w hs h
    have hlt := attemptStart_lt hs
    rw [loop_succ_of_lt hlt]
    cases hstep : attempt rt t req (i : Int) w with
    | next w1 =>
      have hs1 := attemptStart_succ hs hstep
      have := ih (i + 1) w1 hs1 (by push_cast at h ⊢; omega)
      simpa using this
    | done o w1 => exact ⟨i, w, o, w1, hs, hstep, rfl⟩

/-- With `RetryTimes` at least 1 the call ends at a return (or a panic) of the
loop body: the loop does not run out. -/
theorem RoundTrip_ends_in_attempt (rt : Runtime σ) (t : Transport σ) (req : Request)
    (w0 : World σ) (h1 : 1 ≤ t.RetryTimes) :
    ∃ (k : Nat) (wk : World σ) (o : Outcome) (wf : World σ),
      attemptStart rt t req w0 k = some wk ∧
      attempt rt t req (k : Int) wk = Step.done o wf ∧
      RoundTrip rt t req w0 = some (o, wf) := by
  have hs : attemptStart rt t req w0 0 = some w0 := by
    have : (0 : Int) < t.RetryTimes := by omega
    simp only [attemptStart, if_pos this]
  have := loop_ends_in_attempt rt t req w0 t.RetryTimes.toNat 0 w0 hs
    (by simp [Int.self_le_toNat])
  simpa [RoundTrip] using this

/-- With `RetryTimes` at most 0 the loop body never runs. -/
theorem RoundTrip_of_nonpos (rt : Runtime σ) (t : Transport σ) (req : Request)
    (w0 : World σ) (h0 : t.RetryTimes ≤ 0) :
    RoundTrip rt t req w0 = some (Outcome.returned none (some (cannotReachHere req)), w0) := by
  have hn : ¬ (0 : Int) < t.RetryTimes := by omega
  have ht : t.RetryTimes.toNat = 0 := by omega
  simp only [RoundTrip, ht, loop, if_neg hn]

/-- C16: with `RetryTimes` at least 1 the call never reaches the error of line
132: it ends at a return (or a nil dereference) inside the loop body, at some
attempt `k < RetryTimes`, and the attempt of index `RetryTimes - 1` never ends
with `continue`.  With `RetryTimes` at most 0 the call returns that error, and
the world is the one it started in: no collaborator was called. -/
theorem exhausted_error_only_without_attempts (rt : Runtime σ) (t : Transport σ)
    (req : Request) (w0 : World σ) :
    (1 ≤ t.RetryTimes →
      ∃ (k : Nat) (wk : World σ) (o : Outcome) (wf : World σ),
        (k : Int) < t.RetryTimes ∧
        attemptStart rt t req w0 k = some wk ∧
        attempt rt t req (k : Int) wk = Step.done o wf ∧
        RoundTrip rt t req w0 = some (o, wf)) ∧
    (∀ (i : Nat) (w : World σ), attemptStart rt t req w0 i = some w →
      (i : Int) = t.RetryTimes - 1 →
      ∃ (o : Outcome) (w1 : World σ), attempt rt t req (i : Int) w = Step.done o w1) ∧
    (t.RetryTimes ≤ 0 →
      RoundTrip rt t req w0 =
        some (Outcome.returned none (some (cannotReachHere req)), w0)) := by
  refine ⟨?_, ?_, RoundTrip_of_nonpos rt t req w0⟩
  · intro h1
    obtain ⟨k, wk, o, wf, hs, hstep, hf⟩ := RoundTrip_ends_in_attempt rt t req w0 h1
    exact ⟨k, wk, o, wf, attemptStart_lt hs, hs, hstep, hf⟩
  · intro i w _ hlast
    cases hstep : attempt rt t req (i : Int) w with
    | next w1 => exact absurd hlast (attempt_next hstep)
    | done o w1 => exact ⟨o, w1, rfl⟩

theorem exhausted_error_only_without_attempts_witness :
    (∃ (k : Nat) (wk : World Nat) (o : Outcome) (wf : World Nat),
      (k : Int) < (scriptedTransport transportFailsScript 2).RetryTimes ∧
      attemptStart (scriptedRuntime transportFailsScript)
        (scriptedTransport transportFailsScript 2) sampleRequest emptyWorld k = some wk ∧
      attempt (scriptedRuntime transportFailsScript)
        (scriptedTransport transportFailsScript 2) sampleRequest (k : Int) wk =
        Step.done o wf ∧
      RoundTrip (scriptedRuntime transportFailsScript)
        (scriptedTransport transportFailsScript 2) sampleRequest emptyWorld = some (o, wf)) ∧
    RoundTrip (scriptedRuntime okScript) (scriptedTransport okScript 0) sampleRequest
        emptyWorld =
      some (Outcome.returned none (some (cannotReachHere sampleRequest)), emptyWorld) :=
  ⟨(exhausted_error_only_without_attempts (scriptedRuntime transportFailsScript)
      (scriptedTransport transportFailsScript 2) sampleRequest emptyWorld).1 (by decide),
   (exhausted_error_only_without_attempts (scriptedRuntime okScript)
      (scriptedTransport okScript 0) sampleRequest emptyWorld).2.2 (by decide)⟩

/-! ### Without a dialer -/

theorem attempt_countP_isDialerCall (rt : Runtime σ) (t : Transport σ) (req : Request)
    (i : Int) (w : World σ) (hMD : t.MultiDialer = none) :
    List.countP Event.isDialerCall (attempt rt t req i w).world.trace =
      List.countP Event.isDialerCall w.trace := by
  refine attempt_elim rt t req i w
    (fun s => List.countP Event.isDialerCall s.world.trace =
      List.countP Event.isDialerCall w.trace) ?_ ?_ ?_ ?_ ?_ ?_
  · intro server wa req1 e wb hp he
    simp [Step.world, trace_of_callEncodeRequest he, trace_of_callPickFetchServer hp,
      List.countP_cons, Event.isDialerCall]
  · intro server wa req1 wb resp e wc hp he hr
    rw [onTransportError_countP _ t i e wc rfl]
    simp [trace_of_callRoundTrip hr, trace_of_callEncodeRequest he,
      trace_of_callPickFetchServer hp, List.countP_cons, Event.isDialerCall]
  · intro server wa req1 wb wc hp he hr
    simp [Step.world, trace_of_callRoundTrip hr, trace_of_callEncodeRequest he,
      trace_of_callPickFetchServer hp, List.countP_cons, Event.isDialerCall]
  · intro server wa req1 wb resp wc hp he hr _
    rw [onWrapperStatus_countP _ rt t i server resp wc (fun _ => rfl) (fun _ => rfl)
      (by rw [blacklistRemote_of_none rt t resp wc hMD])]
    simp [trace_of_callRoundTrip hr, trace_of_callEncodeRequest he,
      trace_of_callPickFetchServer hp, List.countP_cons, Event.isDialerCall]
  · intro server wa req1 wb resp wc resp1 e wd hp he hr _ hd
    simp [Step.world, trace_of_callDecodeResponse hd, trace_of_callRoundTrip hr,
      trace_of_callEncodeRequest he, trace_of_callPickFetchServer hp, List.countP_cons,
      Event.isDialerCall]
  · intro server wa req1 wb resp wc resp1 wd hp he hr _ hd
    rw [onDecoded_countP _ rt t req i req1 resp resp1 wd (fun _ => rfl) (fun _ => rfl)
      (fun _ => rfl)]
    simp [trace_of_callDecodeResponse hd, trace_of_callRoundTrip hr,
      trace_of_callEncodeRequest he, trace_of_callPickFetchServer hp, List.countP_cons,
      Event.isDialerCall]

/-- A kind of call that no pass adds to the trace is not added by the loop. -/
theorem loop_countP_eq (p : Event → Bool) (rt : Runtime σ) (t : Transport σ)
    (req : Request)
    (hstep : ∀ (i : Int) (w : World σ),
      List.countP p (attempt rt t req i w).world.trace = List.countP p w.trace) :
    ∀ (fuel : Nat) (i : Int) (w wf : World σ) (o : Outcome),
      loop rt t req fuel i w = some (o, wf) →
      List.countP p wf.trace = List.countP p w.trace := by
  intro fuel
  induction fuel with
  | zero =>
    intro i w wf o h
    simp only [loop] at h
    split at h
    · simp at h
    · simp only [Option.some.injEq, Prod.mk.injEq] at h
      rw [← h.2]
  | succ k ih =>
    intro i w wf o h
    simp only [loop] at h
    split at h
    · have hc := hstep i w
      split at h
      · rename_i w1 hs1
        rw [hs1] at hc
        rw [ih _ _ _ _ h]
        exact hc
      · rename_i o1 w1 hs1
        rw [hs1] at hc
        simp only [Option.some.injEq, Prod.mk.injEq] at h
        rw [← h.2]
        exact hc
    · simp only [Option.some.injEq, Prod.mk.injEq] at h
      rw [← h.2]

/-- C14: when `MultiDialer` is nil, a run of `RoundTrip` calls neither
`ReflectRemoteAddrFromResponse`, nor `IPBlackList.Set`, nor
`TryCloseConnectionByRemoteAddr`; and on an attempt that is not the last one a
wrapper status 302, 502, 404 or 405 leads to attempt `i + 1` right after the
inner round trip, with no other call and no sleep. -/
theorem no_dialer_no_blacklist_calls (rt : Runtime σ) (t : Transport σ) (req : Request)
    (w0 : World σ) (hMD : t.MultiDialer = none) :
    (∀ (o : Outcome) (wf : World σ), RoundTrip rt t req w0 = some (o, wf) →
      List.countP Event.isDialerCall wf.trace = List.countP Event.isDialerCall w0.trace) ∧
    (∀ (i : Nat) (w w1 w2 w3 : World σ) (server : Server) (req1 : Option Request)
        (resp : Response),
      attemptStart rt t req w0 i = some w →
      (i : Int) < t.RetryTimes - 1 →
      callPickFetchServer t req i w = (server, w1) →
      callEncodeRequest t req server w1 = ((req1, none), w2) →
      callRoundTrip t req1 w2 = ((some resp, none), w3) →
      (resp.StatusCode = StatusFound ∨ resp.StatusCode = StatusBadGateway ∨
        resp.StatusCode = StatusNotFound ∨ resp.StatusCode = StatusMethodNotAllowed) →
        attemptStart rt t req w0 (i + 1) = some w3 ∧
        w3.trace = w.trace ++ [Event.PickFetchServer req i, Event.EncodeRequest req server,
          Event.RoundTrip req1] ∧
        sleepCalls w3.trace = sleepCalls w.trace) := by
  constructor
  · intro o wf hf
    exact loop_countP_eq Event.isDialerCall rt t req
      (fun i w => attempt_countP_isDialerCall rt t req i w hMD) _ _ _ _ _ hf
  · intro i w w1 w2 w3 server req1 resp hs hnl hp he hr hfour
    have hne : (i : Int) ≠ t.RetryTimes - 1 := by omega
    have h200 : resp.StatusCode ≠ StatusOK := by
      rcases hfour with h | h | h | h <;> rw [h] <;> decide
    have h503 : resp.StatusCode ≠ StatusServiceUnavailable := by
      rcases hfour with h | h | h | h <;> rw [h] <;> decide
    have htr : w3.trace = w.trace ++ [Event.PickFetchServer req i,
        Event.EncodeRequest req server, Event.RoundTrip req1] := by
      simp [trace_of_callRoundTrip hr, trace_of_callEncodeRequest he,
        trace_of_callPickFetchServer hp]
    refine ⟨?_, htr, ?_⟩
    · apply attemptStart_succ hs
      simp only [attempt, hp, he, hr, if_pos h200, onWrapperStatus, if_neg hne, if_neg h503,
        if_pos hfour, blacklistRemote_of_none rt t resp w3 hMD]
    · rw [htr]
      simp [sleepCalls, List.countP_cons, Event.isSleep]

theorem no_dialer_no_blacklist_calls_witness :
    (scriptedTransportNoDialer suspectScript 2).MultiDialer = none ∧
    attemptStart (scriptedRuntime suspectScript) (scriptedTransportNoDialer suspectScript 2)
        sampleRequest emptyWorld (0 + 1) =
      some ⟨0, [Event.PickFetchServer sampleRequest 0,
        Event.EncodeRequest sampleRequest ⟨"appid"⟩, Event.RoundTrip (some sampleEncoded)]⟩ :=
  ⟨rfl, ((no_dialer_no_blacklist_calls (scriptedRuntime suspectScript)
    (scriptedTransportNoDialer suspectScript 2) sampleRequest emptyWorld rfl).2 0 emptyWorld
    _ _ _ ⟨"appid"⟩ (some sampleEncoded) (rawResponse 404)
    (by decide) (by decide) rfl rfl rfl (by decide)).1⟩

/-- C15: with a dialer configured, on an attempt that is not the last one, a
wrapper status 302, 502, 404 or 405 whose remote address `addr` is found and
splits into `ip` and a port makes the attempt write `ip` to the blacklist
once, with the expiry `now + 8 * Hour`, then call
`TryCloseConnectionByRemoteAddr addr` once; attempt `i + 1` begins there, with
no sleep.  On the last attempt, and on any wrapper status other than these
four, an attempt writes nothing to the blacklist. -/
theorem suspect_status_blacklists_remote (rt : Runtime σ) (t : Transport σ)
    (req : Request) (w0 : World σ) (md : MultiDialer σ) (hMD : t.MultiDialer = some md) :
    (∀ (i : Nat) (w w1 w2 w3 w4 w5 : World σ) (server : Server) (req1 : Option Request)
        (resp : Response) (addr ip port : String) (now : Int),
      attemptStart rt t req w0 i = some w →
      (i : Int) < t.RetryTimes - 1 →
      callPickFetchServer t req i w = (server, w1) →
      callEncodeRequest t req server w1 = ((req1, none), w2) →
      callRoundTrip t req1 w2 = ((some resp, none), w3) →
      (resp.StatusCode = StatusFound ∨ resp.StatusCode = StatusBadGateway ∨
        resp.StatusCode = StatusNotFound ∨ resp.StatusCode = StatusMethodNotAllowed) →
      callReflectRemoteAddrFromResponse rt resp w3 = ((addr, none), w4) →
      rt.SplitHostPort addr = ((ip, port), none) →
      callNow rt w4 = (now, w5) →
        attemptStart rt t req w0 (i + 1) =
          some (callTryCloseConnectionByRemoteAddr t addr
            (callIPBlackListSet md ip (now + 8 * Hour) w5)).2 ∧
        (callTryCloseConnectionByRemoteAddr t addr
            (callIPBlackListSet md ip (now + 8 * Hour) w5)).2.trace =
          w.trace ++ [Event.PickFetchServer req i, Event.EncodeRequest req server,
            Event.RoundTrip req1, Event.ReflectRemoteAddrFromResponse resp, Event.Now,
            Event.IPBlackListSet ip (now + 8 * Hour),
            Event.TryCloseConnectionByRemoteAddr addr]) ∧
    (∀ (i : Nat) (w w1 w2 w3 : World σ) (server : Server) (req1 : Option Request)
        (resp : Response),
      attemptStart rt t req w0 i = some w →
      callPickFetchServer t req i w = (server, w1) →
      callEncodeRequest t req server w1 = ((req1, none), w2) →
      callRoundTrip t req1 w2 = ((some resp, none), w3) →
      ((i : Int) = t.RetryTimes - 1 ∨
        ¬ (resp.StatusCode = StatusFound ∨ resp.StatusCode = StatusBadGateway ∨
          resp.StatusCode = StatusNotFound ∨ resp.StatusCode = StatusMethodNotAllowed)) →
        List.countP Event.isIPBlackListSet (attempt rt t req i w).world.trace =
          List.countP Event.isIPBlackListSet w.trace) := by
  constructor
  · intro i w w1 w2 w3 w4 w5 server req1 resp addr ip port now hs hnl hp he hr hfour
      hrefl hsplit hnow
    have hne : (i : Int) ≠ t.RetryTimes - 1 := by omega
    have h200 : resp.StatusCode ≠ StatusOK := by
      rcases hfour with h | h | h | h <;> rw [h] <;> decide
    have h503 : resp.StatusCode ≠ StatusServiceUnavailable := by
      rcases hfour with h | h | h | h <;> rw [h] <;> decide
    constructor
    · apply attemptStart_succ hs
      simp only [attempt, hp, he, hr, if_pos h200, onWrapperStatus, if_neg hne, if_neg h503,
        if_pos hfour, blacklistRemote, hMD, hrefl, hsplit, hnow]
    · have h4 : w4.trace = w3.trace ++ [Event.ReflectRemoteAddrFromResponse resp] := by
        have := callReflectRemoteAddrFromResponse_trace rt resp w3
        rwa [hrefl] at this
      have h5 : w5.trace = w4.trace ++ [Event.Now] := by
        have := callNow_trace rt w4
        rwa [hnow] at this
      simp [h5, h4, trace_of_callRoundTrip hr, trace_of_callEncodeRequest he,
        trace_of_callPickFetchServer hp]
  · intro i w w1 w2 w3 server req1 resp hs hp he hr hor
    have htr : List.countP Event.isIPBlackListSet w3.trace =
        List.countP Event.isIPBlackListSet w.trace := by
      simp [trace_of_callRoundTrip hr, trace_of_callEncodeRequest he,
        trace_of_callPickFetchServer hp, List.countP_cons, Event.isIPBlackListSet]
    by_cases h200 : resp.StatusCode ≠ StatusOK
    · simp only [attempt, hp, he, hr, if_pos h200]
      rw [← htr]
      unfold onWrapperStatus
      split
      · rfl
      · rename_i hne
        split
        · simp [Step.world, List.countP_cons, Event.isIPBlackListSet]
        · split
          · rename_i hfour
            rcases hor with h | h
            · exact absurd h hne
            · exact absurd hfour h
          · rfl
    · rcases hd : callDecodeResponse t resp w3 with ⟨⟨resp1, derr⟩, w4⟩
      have h4 : List.countP Event.isIPBlackListSet w4.trace =
          List.countP Event.isIPBlackListSet w.trace := by
        rw [← htr, trace_of_callDecodeResponse hd]
        simp [List.countP_cons, Event.isIPBlackListSet]
      cases derr with
      | some e =>
        simp only [attempt, hp, he, hr, if_neg h200, hd, Step.world]
        exact h4
      | none =>
        simp only [attempt, hp, he, hr, if_neg h200, hd]
        rw [onDecoded_countP _ rt t req i req1 resp resp1 w4 (fun _ => rfl) (fun _ => rfl)
          (fun _ => rfl)]
        exact h4

theorem suspect_status_blacklists_remote_witness :
    (scriptedTransport suspectScript 2).MultiDialer = some ⟨fun _ _ n => n⟩ ∧
    attemptStart (scriptedRuntime suspectScript) (scriptedTransport suspectScript 2)
        sampleRequest emptyWorld (0 + 1) =
      some ⟨0, [Event.PickFetchServer sampleRequest 0,
        Event.EncodeRequest sampleRequest ⟨"appid"⟩, Event.RoundTrip (some sampleEncoded),
        Event.ReflectRemoteAddrFromResponse (rawResponse 404), Event.Now,
        Event.IPBlackListSet "203.0.113.7" (0 + 8 * Hour),
        Event.TryCloseConnectionByRemoteAddr "203.0.113.7:443"]⟩ :=
  ⟨rfl, ((suspect_status_blacklists_remote (scriptedRuntime suspectScript)
    (scriptedTransport suspectScript 2) sampleRequest emptyWorld ⟨fun _ _ n => n⟩ rfl).1
    0 emptyWorld _ _ _ _ _ ⟨"appid"⟩ (some sampleEncoded) (rawResponse 404)
    "203.0.113.7:443" "203.0.113.7" "443" 0
    (by decide) (by decide) rfl rfl rfl (by decide) rfl (by decide) rfl).1⟩

/-! ### Where the sleeps are -/

theorem onDecoded_sleeps (rt : Runtime σ) (t : Transport σ) (req : Request) (i : Int)
    (req1 : Option Request) (resp : Response) (resp1 : Option Response) (w : World σ) :
    sleepCalls (onDecoded rt t req i req1 resp resp1 w).world.trace = sleepCalls w.trace ∨
    (∃ (r1 : Response) (b : Bytes) (we : World σ),
      resp1 = some r1 ∧ i ≠ t.RetryTimes - 1 ∧ r1.StatusCode = StatusBadGateway ∧
      callReadAll rt r1.Body w = ((b, none), we) ∧
      (Contains b (bytesOf "ver quota") = true ∨
        Contains b (bytesOf "urlfetch: CLOSED") = true) ∧
      onDecoded rt t req i req1 resp resp1 w =
        Step.next (callSleep rt t.RetryDelay (callClose rt r1.Body we)) ∧
      sleepCalls (callClose rt r1.Body we).trace = sleepCalls w.trace) := by
  by_cases hlast : i = t.RetryTimes - 1
  · left
    simp [onDecoded, hlast, Step.world]
  · cases resp1 with
    | none =>
      left
      simp [onDecoded, hlast, Step.world]
    | some r1 =>
      by_cases h502 : r1.StatusCode = StatusBadGateway
      · rcases hb : callReadAll rt r1.Body w with ⟨⟨b, berr⟩, we⟩
        have hcl : sleepCalls (callClose rt r1.Body we).trace = sleepCalls w.trace := by
          simp [trace_of_callReadAll hb, sleepCalls, List.countP_cons, Event.isSleep]
        cases berr with
        | some e =>
          left
          simp only [onDecoded, Option.map_some', if_neg hlast, h502, if_true, hb, Step.world]
          exact hcl
        | none =>
          cases req1 with
          | none =>
            left
            simp only [onDecoded, logHost, Option.map_some', if_neg hlast, h502, if_true, hb]
            split_ifs <;> simpa [Step.world] using hcl
          | some q1 =>
            by_cases hD : Contains b (bytesOf "DEADLINE_EXCEEDED") = true
            · left
              simp only [onDecoded, logHost, Option.map_some', if_neg hlast, h502, if_true,
                hb, hD, Step.world]
              exact hcl
            · by_cases hQ : Contains b (bytesOf "ver quota") = true
              · right
                refine ⟨r1, b, we, rfl, hlast, h502, hb, Or.inl hQ, ?_, hcl⟩
                simp only [onDecoded, logHost, Option.map_some', if_neg hlast, h502, if_true,
                  hb, hD, hQ, if_false]
                simp
              · by_cases hC : Contains b (bytesOf "urlfetch: CLOSED") = true
                · right
                  refine ⟨r1, b, we, rfl, hlast, h502, hb, Or.inr hC, ?_, hcl⟩
                  simp only [onDecoded, logHost, Option.map_some', if_neg hlast, h502,
                    if_true, hb, hD, hQ, hC, if_false]
                  simp
                · left
                  simp only [onDecoded, logHost, Option.map_some', if_neg hlast, h502,
                    if_true, hb, hD, hQ, hC, Step.world]
                  simpa using hcl
      · left
        simp [onDecoded, hlast, h502, Step.world]

/-- A pass adds no sleep to the trace, or it is not the last one, meets a
backoff condition and ends with `continue` right after one sleep of
`RetryDelay`. -/
theorem attempt_sleeps (rt : Runtime σ) (t : Transport σ) (req : Request) (i : Int)
    (w : World σ) :
    sleepCalls (attempt rt t req i w).world.trace = sleepCalls w.trace ∨
    (∃ wp : World σ,
      attempt rt t req i w = Step.next (callSleep rt t.RetryDelay wp) ∧
      sleepCalls wp.trace = sleepCalls w.trace ∧
      i ≠ t.RetryTimes - 1 ∧
      backoffCause rt t req i w = true) := by
  refine attempt_elim rt t req i w
    (fun s => sleepCalls s.world.trace = sleepCalls w.trace ∨
      (∃ wp : World σ, s = Step.next (callSleep rt t.RetryDelay wp) ∧
        sleepCalls wp.trace = sleepCalls w.trace ∧ i ≠ t.RetryTimes - 1 ∧
        backoffCause rt t req i w = true)) ?_ ?_ ?_ ?_ ?_ ?_
  · intro server wa req1 e wb hp he
    left
    simp [Step.world, trace_of_callEncodeRequest he, trace_of_callPickFetchServer hp,
      sleepCalls, List.countP_cons, Event.isSleep]
  · intro server wa req1 wb resp e wc hp he hr
    left
    unfold sleepCalls
    rw [onTransportError_countP _ t i e wc rfl]
    simp [trace_of_callRoundTrip hr, trace_of_callEncodeRequest he,
      trace_of_callPickFetchServer hp, List.countP_cons, Event.isSleep]
  · intro server wa req1 wb wc hp he hr
    left
    simp [Step.world, trace_of_callRoundTrip hr, trace_of_callEncodeRequest he,
      trace_of_callPickFetchServer hp, sleepCalls, List.countP_cons, Event.isSleep]
  · intro server wa req1 wb resp wc hp he hr hst
    have hwc : sleepCalls wc.trace = sleepCalls w.trace := by
      simp [trace_of_callRoundTrip hr, trace_of_callEncodeRequest he,
        trace_of_callPickFetchServer hp, sleepCalls, List.countP_cons, Event.isSleep]
    by_cases hlast : i = t.RetryTimes - 1
    · left
      simp only [onWrapperStatus, if_pos hlast, Step.world]
      exact hwc
    · by_cases h503 : resp.StatusCode = StatusServiceUnavailable
      · right
        refine ⟨callToggleBadServer t server wc, ?_, ?_, hlast, ?_⟩
        · simp only [onWrapperStatus, if_neg hlast, if_pos h503]
        · rw [← hwc]
          simp [sleepCalls, List.countP_cons, Event.isSleep]
        · simp [backoffCause, hp, he, hr, h503]
      · left
        by_cases hfour : resp.StatusCode = StatusFound ∨ resp.StatusCode = StatusBadGateway ∨
            resp.StatusCode = StatusNotFound ∨ resp.StatusCode = StatusMethodNotAllowed
        · simp only [onWrapperStatus, if_neg hlast, if_neg h503, if_pos hfour, Step.world]
          rw [← hwc]
          exact blacklistRemote_countP _ rt t resp wc (fun _ => rfl) rfl (fun _ _ => rfl)
            (fun _ => rfl)
        · simp only [onWrapperStatus, if_neg hlast, if_neg h503, if_neg hfour, Step.world]
          exact hwc
  · intro server wa req1 wb resp wc resp1 e wd hp he hr _ hd
    left
    simp [Step.world, trace_of_callDecodeResponse hd, trace_of_callRoundTrip hr,
      trace_of_callEncodeRequest he, trace_of_callPickFetchServer hp, sleepCalls,
      List.countP_cons, Event.isSleep]
  · intro server wa req1 wb resp wc resp1 wd hp he hr hst hd
    have hwd : sleepCalls wd.trace = sleepCalls w.trace := by
      simp [trace_of_callDecodeResponse hd, trace_of_callRoundTrip hr,
        trace_of_callEncodeRequest he, trace_of_callPickFetchServer hp, sleepCalls,
        List.countP_cons, Event.isSleep]
    rcases onDecoded_sleeps rt t req i req1 resp resp1 wd with h | h
    · left
      rw [h, hwd]
    · right
      obtain ⟨r1, b, we, hr1, hne, h502, hb, hm, hstep, hcl⟩ := h
      refine ⟨callClose rt r1.Body we, hstep, by rw [hcl, hwd], hne, ?_⟩
      subst hr1
      rcases hm with hm | hm <;>
        simp [backoffCause, hp, he, hr, hst, hd, h502, hb, hm]

theorem attempt_next_sleepCalls_le {rt : Runtime σ} {t : Transport σ} {req : Request}
    {i : Int} {w w1 : World σ} (h : attempt rt t req i w = Step.next w1) :
    sleepCalls w1.trace ≤ sleepCalls w.trace + 1 := by
  rcases attempt_sleeps rt t req i w with hs | ⟨wp, hstep, hwp, _, _⟩
  · rw [h] at hs
    simp only [Step.world] at hs
    omega
  · rw [h] at hstep
    simp only [Step.next.injEq] at hstep
    rw [hstep, callSleep_trace, ← hwp]
    simp [sleepCalls, List.countP_cons, Event.isSleep]

theorem attempt_done_sleepCalls {rt : Runtime σ} {t : Transport σ} {req : Request}
    {i : Int} {w w1 : World σ} {o : Outcome} (h : attempt rt t req i w = Step.done o w1) :
    sleepCalls w1.trace = sleepCalls w.trace := by
  rcases attempt_sleeps rt t req i w with hs | ⟨wp, hstep, _, _, _⟩
  · rw [h] at hs
    exact hs
  · rw [h] at hstep
    simp at hstep

theorem attemptStart_sleepCalls_le {rt : Runtime σ} {t : Transport σ} {req : Request}
    {w0 : World σ} : ∀ {i : Nat} {w : World σ}, attemptStart rt t req w0 i = some w →
      sleepCalls w.trace ≤ sleepCalls w0.trace + i := by
  intro i
  induction i with
  | zero =>
    intro w h
    simp only [attemptStart] at h
    split at h
    · simp only [Option.some.injEq] at h
      subst h
      exact Nat.le_refl _
    · simp at h
  | succ n ih =>
    intro w h
    have hlt := attemptStart_lt h
    simp only [attemptStart] at h
    split at h
    · simp at h
    · rename_i wn hn
      split at h
      · rename_i w1 hstep
        rw [if_pos hlt] at h
        simp only [Option.some.injEq] at h
        subst h
        have h1 := attempt_next_sleepCalls_le hstep
        have h2 := ih hn
        omega
      · simp at h

/-- C18: sleeps occur only in the backoff branches.  A pass either adds no
sleep to the trace, or it is not the last one, it met a wrapper status 503 or a
decoded 502 whose body holds `"ver quota"` or `"urlfetch: CLOSED"`, and it ends
with `continue` right after one sleep, of `RetryDelay`.  No sleep is added by a
pass that leaves the function, by one whose inner round trip failed, or by one
that met a wrapper status 302, 502, 404 or 405.  Hence a run adds at most
`RetryTimes - 1` sleeps (none when `RetryTimes` is below 1). -/
theorem sleeps_only_in_backoff_branches (rt : Runtime σ) (t : Transport σ) (req : Request)
    (w0 : World σ) :
    (∀ (i : Nat) (w : World σ), attemptStart rt t req w0 i = some w →
      (sleepCalls (attempt rt t req i w).world.trace = sleepCalls w.trace ∨
        (∃ wp : World σ,
          attempt rt t req i w = Step.next (callSleep rt t.RetryDelay wp) ∧
          (callSleep rt t.RetryDelay wp).trace = wp.trace ++ [Event.Sleep t.RetryDelay] ∧
          sleepCalls wp.trace = sleepCalls w.trace ∧
          (i : Int) < t.RetryTimes - 1 ∧
          backoffCause rt t req i w = true))) ∧
    (∀ (i : Nat) (w w1 : World σ) (o : Outcome), attemptStart rt t req w0 i = some w →
      attempt rt t req i w = Step.done o w1 → sleepCalls w1.trace = sleepCalls w.trace) ∧
    (∀ (i : Nat) (w w1 w2 w3 : World σ) (server : Server) (req1 : Option Request)
        (resp : Option Response) (e : GoError),
      attemptStart rt t req w0 i = some w →
      callPickFetchServer t req i w = (server, w1) →
      callEncodeRequest t req server w1 = ((req1, none), w2) →
      callRoundTrip t req1 w2 = ((resp, some e), w3) →
      sleepCalls (attempt rt t req i w).world.trace = sleepCalls w.trace) ∧
    (∀ (i : Nat) (w w1 w2 w3 : World σ) (server : Server) (req1 : Option Request)
        (resp : Response),
      attemptStart rt t req w0 i = some w →
      callPickFetchServer t req i w = (server, w1) →
      callEncodeRequest t req server w1 = ((req1, none), w2) →
      callRoundTrip t req1 w2 = ((some resp, none), w3) →
      (resp.StatusCode = StatusFound ∨ resp.StatusCode = StatusBadGateway ∨
        resp.StatusCode = StatusNotFound ∨ resp.StatusCode = StatusMethodNotAllowed) →
      sleepCalls (attempt rt t req i w).world.trace = sleepCalls w.trace) ∧
    (∀ (o : Outcome) (wf : World σ), RoundTrip rt t req w0 = some (o, wf) →
      sleepCalls wf.trace ≤ sleepCalls w0.trace + (t.RetryTimes - 1).toNat) := by
  have hcause_status : ∀ (i : Nat) (w w1 w2 w3 : World σ) (server : Server)
      (req1 : Option Request) (r : Option Response × Option GoError),
      callPickFetchServer t req i w = (server, w1) →
      callEncodeRequest t req server w1 = ((req1, none), w2) →
      callRoundTrip t req1 w2 = (r, w3) →
      backoffCause rt t req i w = true →
      ∃ resp, r = (some resp, none) ∧
        (resp.StatusCode = StatusServiceUnavailable ∨ resp.StatusCode = StatusOK) := by
    intro i w w1 w2 w3 server req1 r hp he hr hc
    rcases r with ⟨resp, rerr⟩
    cases rerr with
    | some e => simp [backoffCause, hp, he, hr] at hc
    | none =>
      cases resp with
      | none => simp [backoffCause, hp, he, hr] at hc
      | some resp =>
        refine ⟨resp, rfl, ?_⟩
        simp only [backoffCause, hp, he, hr, Option.isNone_none, Bool.and_self,
          Bool.true_and, Bool.or_eq_true, decide_eq_true_eq, Bool.and_eq_true] at hc
        rcases hc with h | h
        · exact Or.inl h
        · exact Or.inr h.1
  refine ⟨?_, ?_, ?_, ?_, ?_⟩
  · intro i w hs
    have hlt := attemptStart_lt hs
    rcases attempt_sleeps rt t req i w with h | ⟨wp, hstep, hwp, hne, hc⟩
    · exact Or.inl h
    · exact Or.inr ⟨wp, hstep, callSleep_trace rt _ wp, hwp, by omega, hc⟩
  · intro i w w1 o _ hstep
    exact attempt_done_sleepCalls hstep
  · intro i w w1 w2 w3 server req1 resp e _ hp he hr
    rcases attempt_sleeps rt t req i w with h | ⟨wp, _, _, _, hc⟩
    · exact h
    · obtain ⟨resp1, hr1, _⟩ := hcause_status i w w1 w2 w3 server req1 _ hp he hr hc
      simp at hr1
  · intro i w w1 w2 w3 server req1 resp _ hp he hr hfour
    rcases attempt_sleeps rt t req i w with h | ⟨wp, _, _, _, hc⟩
    · exact h
    · obtain ⟨resp1, hr1, hst⟩ := hcause_status i w w1 w2 w3 server req1 _ hp he hr hc
      simp only [Prod.mk.injEq, Option.some.injEq, and_true] at hr1
      subst hr1
      exfalso
      rcases hfour with h | h | h | h <;> rcases hst with h2 | h2 <;>
        rw [h] at h2 <;> revert h2 <;> decide
  · intro o wf hf
    by_cases h1 : 1 ≤ t.RetryTimes
    · obtain ⟨k, wk, o1, wf1, hs, hstep, hf1⟩ := RoundTrip_ends_in_attempt rt t req w0 h1
      rw [hf1] at hf
      simp only [Option.some.injEq, Prod.mk.injEq] at hf
      rw [← hf.2, attempt_done_sleepCalls hstep]
      have h2 := attemptStart_sleepCalls_le hs
      have h3 := attemptStart_lt hs
      omega
    · rw [RoundTrip_of_nonpos rt t req w0 (by omega)] at hf
      simp only [Option.some.injEq, Prod.mk.injEq] at hf
      rw [← hf.2]
      omega

theorem sleeps_only_in_backoff_branches_witness :
    sleepCalls [Event.PickFetchServer sampleRequest 0,
        Event.EncodeRequest sampleRequest ⟨"appid"⟩, Event.RoundTrip (some sampleEncoded),
        Event.ToggleBadServer ⟨"appid"⟩, Event.Sleep 1000,
        Event.PickFetchServer sampleRequest 1, Event.EncodeRequest sampleRequest ⟨"appid"⟩,
        Event.RoundTrip (some sampleEncoded)] ≤
      sleepCalls emptyWorld.trace +
        ((scriptedTransport overloadedThenNotFoundScript 2).RetryTimes - 1).toNat :=
  (sleeps_only_in_backoff_branches (scriptedRuntime overloadedThenNotFoundScript)
    (scriptedTransport overloadedThenNotFoundScript 2) sampleRequest emptyWorld).2.2.2.2
    (Outcome.returned (some (rawResponse 404)) none)
    ⟨1, [Event.PickFetchServer sampleRequest 0,
        Event.EncodeRequest sampleRequest ⟨"appid"⟩, Event.RoundTrip (some sampleEncoded),
        Event.ToggleBadServer ⟨"appid"⟩, Event.Sleep 1000,
        Event.PickFetchServer sampleRequest 1, Event.EncodeRequest sampleRequest ⟨"appid"⟩,
        Event.RoundTrip (some sampleEncoded)]⟩ (by decide)

/-! ### One pick, one encoding, one round trip, one decoding per pass -/

theorem calls_once_of_tail (trc pre : List Event) {tr tr2 : List Event} {req : Request}
    {i : Int}
    (hpre : trc = tr ++ Event.PickFetchServer req i :: pre)
    (hgrow : trc <+: tr2)
    (h1 : List.countP Event.isPickFetchServer tr2 = List.countP Event.isPickFetchServer trc)
    (h2 : List.countP Event.isEncodeRequest tr2 = List.countP Event.isEncodeRequest trc)
    (h3 : List.countP Event.isRoundTrip tr2 = List.countP Event.isRoundTrip trc)
    (h4 : List.countP Event.isDecodeResponse tr2 = List.countP Event.isDecodeResponse trc)
    (c1 : List.countP Event.isPickFetchServer pre = 0)
    (c2 : List.countP Event.isEncodeRequest pre ≤ 1)
    (c3 : performCalls pre ≤ 1)
    (c4 : List.countP Event.isDecodeResponse pre ≤ 1) :
    ∃ rest : List Event, tr2 = tr ++ Event.PickFetchServer req i :: rest ∧
      List.countP Event.isPickFetchServer rest = 0 ∧
      List.countP Event.isEncodeRequest rest ≤ 1 ∧
      performCalls rest ≤ 1 ∧
      List.countP Event.isDecodeResponse rest ≤ 1 := by
  obtain ⟨evs, hevs⟩ := hgrow
  subst hevs
  have e1 := countP_added_eq_zero h1
  have e2 := countP_added_eq_zero h2
  have e3 := countP_added_eq_zero h3
  have e4 := countP_added_eq_zero h4
  refine ⟨pre ++ evs, by simp [hpre], ?_, ?_, ?_, ?_⟩
  · rw [List.countP_append]; omega
  · rw [List.countP_append]; omega
  · unfold performCalls at c3 ⊢
    rw [List.countP_append]; omega
  · rw [List.countP_append]; omega

/-- A pass calls `PickFetchServer` once, first and with its own index, and
after that `EncodeRequest`, the inner round tripper and `DecodeResponse` at
most once each. -/
theorem attempt_calls_once (rt : Runtime σ) (t : Transport σ) (req : Request) (i : Int)
    (w : World σ) :
    ∃ rest : List Event,
      (attempt rt t req i w).world.trace = w.trace ++ Event.PickFetchServer req i :: rest ∧
      List.countP Event.isPickFetchServer rest = 0 ∧
      List.countP Event.isEncodeRequest rest ≤ 1 ∧
      performCalls rest ≤ 1 ∧
      List.countP Event.isDecodeResponse rest ≤ 1 := by
  refine attempt_elim rt t req i w
    (fun s => ∃ rest : List Event,
      s.world.trace = w.trace ++ Event.PickFetchServer req i :: rest ∧
      List.countP Event.isPickFetchServer rest = 0 ∧
      List.countP Event.isEncodeRequest rest ≤ 1 ∧
      performCalls rest ≤ 1 ∧
      List.countP Event.isDecodeResponse rest ≤ 1) ?_ ?_ ?_ ?_ ?_ ?_
  · intro server wa req1 e wb hp he
    refine ⟨[Event.EncodeRequest req server], ?_, ?_⟩
    · simp [Step.world, trace_of_callEncodeRequest he, trace_of_callPickFetchServer hp]
    · simp [List.countP_cons, performCalls, Event.isPickFetchServer, Event.isEncodeRequest,
        Event.isRoundTrip, Event.isDecodeResponse]
  · intro server wa req1 wb resp e wc hp he hr
    refine calls_once_of_tail wc.trace
      [Event.EncodeRequest req server, Event.RoundTrip req1] ?_
      (onTransportError_trace_grows t i e wc)
      (onTransportError_countP _ t i e wc rfl) (onTransportError_countP _ t i e wc rfl)
      (onTransportError_countP _ t i e wc rfl) (onTransportError_countP _ t i e wc rfl)
      ?_ ?_ ?_ ?_
    · simp [trace_of_callRoundTrip hr, trace_of_callEncodeRequest he,
        trace_of_callPickFetchServer hp]
    all_goals simp [List.countP_cons, performCalls, Event.isPickFetchServer,
      Event.isEncodeRequest, Event.isRoundTrip, Event.isDecodeResponse]
  · intro server wa req1 wb wc hp he hr
    refine ⟨[Event.EncodeRequest req server, Event.RoundTrip req1], ?_, ?_⟩
    · simp [Step.world, trace_of_callRoundTrip hr, trace_of_callEncodeRequest he,
        trace_of_callPickFetchServer hp]
    · simp [List.countP_cons, performCalls, Event.isPickFetchServer, Event.isEncodeRequest,
        Event.isRoundTrip, Event.isDecodeResponse]
  · intro server wa req1 wb resp wc hp he hr _
    have hB : ∀ p : Event → Bool, (∀ r, p (Event.ReflectRemoteAddrFromResponse r) = false) →
        p Event.Now = false → (∀ ip ex, p (Event.IPBlackListSet ip ex) = false) →
        (∀ a, p (Event.TryCloseConnectionByRemoteAddr a) = false) →
        (∀ s, p (Event.ToggleBadServer s) = false) → (∀ d, p (Event.Sleep d) = false) →
        List.countP p (onWrapperStatus rt t i server resp wc).world.trace =
          List.countP p wc.trace := fun p a b c d e f =>
      onWrapperStatus_countP p rt t i server resp wc e f
        (blacklistRemote_countP p rt t resp wc a b c d)
    refine calls_once_of_tail wc.trace
      [Event.EncodeRequest req server, Event.RoundTrip req1] ?_
      (onWrapperStatus_trace_grows rt t i server resp wc)
      (hB _ (fun _ => rfl) rfl (fun _ _ => rfl) (fun _ => rfl) (fun _ => rfl) (fun _ => rfl))
      (hB _ (fun _ => rfl) rfl (fun _ _ => rfl) (fun _ => rfl) (fun _ => rfl) (fun _ => rfl))
      (hB _ (fun _ => rfl) rfl (fun _ _ => rfl) (fun _ => rfl) (fun _ => rfl) (fun _ => rfl))
      (hB _ (fun _ => rfl) rfl (fun _ _ => rfl) (fun _ => rfl) (fun _ => rfl) (fun _ => rfl))
      ?_ ?_ ?_ ?_
    · simp [trace_of_callRoundTrip hr, trace_of_callEncodeRequest he,
        trace_of_callPickFetchServer hp]
    all_goals simp [List.countP_cons, performCalls, Event.isPickFetchServer,
      Event.isEncodeRequest, Event.isRoundTrip, Event.isDecodeResponse]
  · intro server wa req1 wb resp wc resp1 e wd hp he hr _ hd
    refine ⟨[Event.EncodeRequest req server, Event.RoundTrip req1,
      Event.DecodeResponse resp], ?_, ?_⟩
    · simp [Step.world, trace_of_callDecodeResponse hd, trace_of_callRoundTrip hr,
        trace_of_callEncodeRequest he, trace_of_callPickFetchServer hp]
    · simp [List.countP_cons, performCalls, Event.isPickFetchServer, Event.isEncodeRequest,
        Event.isRoundTrip, Event.isDecodeResponse]
  · intro server wa req1 wb resp wc resp1 wd hp he hr _ hd
    refine calls_once_of_tail wd.trace
      [Event.EncodeRequest req server, Event.RoundTrip req1, Event.DecodeResponse resp] ?_
      (onDecoded_trace_grows rt t req i req1 resp resp1 wd)
      (onDecoded_countP _ rt t req i req1 resp resp1 wd (fun _ => rfl) (fun _ => rfl)
        (fun _ => rfl))
      (onDecoded_countP _ rt t req i req1 resp resp1 wd (fun _ => rfl) (fun _ => rfl)
        (fun _ => rfl))
      (onDecoded_countP _ rt t req i req1 resp resp1 wd (fun _ => rfl) (fun _ => rfl)
        (fun _ => rfl))
      (onDecoded_countP _ rt t req i req1 resp resp1 wd (fun _ => rfl) (fun _ => rfl)
        (fun _ => rfl))
      ?_ ?_ ?_ ?_
    · simp [trace_of_callDecodeResponse hd, trace_of_callRoundTrip hr,
        trace_of_callEncodeRequest he, trace_of_callPickFetchServer hp]
    all_goals simp [List.countP_cons, performCalls, Event.isPickFetchServer,
      Event.isEncodeRequest, Event.isRoundTrip, Event.isDecodeResponse]

theorem attemptStart_calls {rt : Runtime σ} {t : Transport σ} {req : Request}
    {w0 : World σ} : ∀ {i : Nat} {w : World σ}, attemptStart rt t req w0 i = some w →
      ∃ evs : List Event, w.trace = w0.trace ++ evs ∧
        pickIndices evs = (List.range i).map Int.ofNat ∧
        List.countP Event.isEncodeRequest evs ≤ i ∧
        performCalls evs ≤ i ∧
        List.countP Event.isDecodeResponse evs ≤ i := by
  intro i
  induction i with
  | zero =>
    intro w h
    simp only [attemptStart] at h
    split at h
    · simp only [Option.some.injEq] at h
      subst h
      exact ⟨[], by simp, rfl, by simp, by simp [performCalls], by simp⟩
    · simp at h
  | succ n ih =>
    intro w h
    have hlt := attemptStart_lt h
    simp only [attemptStart] at h
    split at h
    · simp at h
    · rename_i wn hn
      split at h
      · rename_i w1 hstep
        rw [if_pos hlt] at h
        simp only [Option.some.injEq] at h
        subst h
        obtain ⟨evs, he, hi, c2, c3, c4⟩ := ih hn
        obtain ⟨rest, hr, d1, d2, d3, d4⟩ := attempt_calls_once rt t req (n : Int) wn
        rw [hstep] at hr
        simp only [Step.world] at hr
        refine ⟨evs ++ Event.PickFetchServer req (n : Int) :: rest, ?_, ?_, ?_, ?_, ?_⟩
        · rw [hr, he, List.append_assoc]
        · rw [pickIndices_append, hi, List.range_succ, List.map_append]
          simp [pickIndices, pickIndices_of_countP_eq_zero rest d1]
        · rw [List.countP_append, List.countP_cons]
          simp only [Event.isPickFetchServer, Event.isEncodeRequest]
          simp
          omega
        · unfold performCalls at c3 d3 ⊢
          rw [List.countP_append, List.countP_cons]
          simp only [Event.isRoundTrip]
          simp
          omega
        · rw [List.countP_append, List.countP_cons]
          simp only [Event.isDecodeResponse]
          simp
          omega
      · simp at h

/-- C19: a run with `RetryTimes = n` ends; the indices it hands to
`PickFetchServer` are `0, 1, ..., m - 1` in that order for some `m ≤ n` (with
`m ≥ 1`, so the last index is `k = m - 1 < n`, when `n ≥ 1`; no call at all
when `n ≤ 0`); each pass picks once and encodes, performs and decodes at most
once; and the run makes at most `m` encodings, inner round trips and decodings,
so at most `n` inner round trips. -/
theorem attempts_in_order_and_bounded (rt : Runtime σ) (t : Transport σ) (req : Request)
    (w0 : World σ) :
    (∃ (m : Nat) (o : Outcome) (wf : World σ) (evs : List Event),
      RoundTrip rt t req w0 = some (o, wf) ∧
      wf.trace = w0.trace ++ evs ∧
      m ≤ t.RetryTimes.toNat ∧
      (1 ≤ t.RetryTimes → 1 ≤ m ∧ ((m - 1 : Nat) : Int) < t.RetryTimes) ∧
      pickIndices evs = (List.range m).map Int.ofNat ∧
      List.countP Event.isEncodeRequest evs ≤ m ∧
      performCalls evs ≤ m ∧
      List.countP Event.isDecodeResponse evs ≤ m ∧
      performCalls evs ≤ t.RetryTimes.toNat) ∧
    (∀ (i : Nat) (w : World σ), attemptStart rt t req w0 i = some w →
      ∃ rest : List Event,
        (attempt rt t req i w).world.trace =
          w.trace ++ Event.PickFetchServer req i :: rest ∧
        List.countP Event.isPickFetchServer rest = 0 ∧
        List.countP Event.isEncodeRequest rest ≤ 1 ∧
        performCalls rest ≤ 1 ∧
        List.countP Event.isDecodeResponse rest ≤ 1) := by
  refine ⟨?_, fun i w _ => attempt_calls_once rt t req i w⟩
  by_cases h1 : 1 ≤ t.RetryTimes
  · obtain ⟨k, wk, o, wf, hs, hstep, hf⟩ := RoundTrip_ends_in_attempt rt t req w0 h1
    have hlt := attemptStart_lt hs
    obtain ⟨evs, he, hi, c2, c3, c4⟩ := attemptStart_calls hs
    obtain ⟨rest, hr, d1, d2, d3, d4⟩ := attempt_calls_once rt t req (k : Int) wk
    rw [hstep] at hr
    simp only [Step.world] at hr
    have hperf : performCalls (evs ++ Event.PickFetchServer req (k : Int) :: rest) ≤ k + 1 := by
      unfold performCalls at c3 d3 ⊢
      rw [List.countP_append, List.countP_cons]
      simp only [Event.isRoundTrip]
      simp
      omega
    refine ⟨k + 1, o, wf, evs ++ Event.PickFetchServer req (k : Int) :: rest, hf, ?_, ?_, ?_,
      ?_, ?_, hperf, ?_, ?_⟩
    · rw [hr, he, List.append_assoc]
    · omega
    · intro _
      exact ⟨by omega, by simpa using hlt⟩
    · rw [pickIndices_append, hi, List.range_succ, List.map_append]
      simp [pickIndices, pickIndices_of_countP_eq_zero rest d1]
    · rw [List.countP_append, List.countP_cons]
      simp only [Event.isEncodeRequest]
      simp
      omega
    · rw [List.countP_append, List.countP_cons]
      simp only [Event.isDecodeResponse]
      simp
      omega
    · omega
  · refine ⟨0, _, w0, [], RoundTrip_of_nonpos rt t req w0 (by omega), by simp, by omega,
      fun h => absurd h h1, rfl, by simp, by simp [performCalls], by simp,
      by simp [performCalls]⟩

theorem attempts_in_order_and_bounded_witness :
    ∃ rest : List Event,
      (attempt (scriptedRuntime overloadedThenNotFoundScript)
          (scriptedTransport overloadedThenNotFoundScript 2) sampleRequest ((0 : Nat) : Int)
          emptyWorld).world.trace =
        emptyWorld.trace ++ Event.PickFetchServer sampleRequest ((0 : Nat) : Int) :: rest ∧
      List.countP Event.isPickFetchServer rest = 0 ∧
      List.countP Event.isEncodeRequest rest ≤ 1 ∧
      performCalls rest ≤ 1 ∧
      List.countP Event.isDecodeResponse rest ≤ 1 :=
  (attempts_in_order_and_bounded (scriptedRuntime overloadedThenNotFoundScript)
    (scriptedTransport overloadedThenNotFoundScript 2) sampleRequest emptyWorld).2 0
    emptyWorld (by decide)

end gae
